import Mathlib

/-!
Verification development for the importal import-job pipeline.

The definitions below are shallow embeddings of the Python source:
  - app/utils/validator.py            (field validation engine)
  - app/services/validation_service.py (service-side validators)
  - app/api/v1/imports.py             (cell edit, diff-based save, legacy save,
                                       promotion coordinator)
  - app/workers/api_worker.py         (full processing pass, schema resolver,
                                       webhook data separation)
  - app/services/import_service.py    (legacy webhook data separation)

Python dictionaries are modelled as association lists with first-match lookup,
Python dynamic values as the inductive `PyV`, exceptions as `Except Unit`,
and CPython `float` values as exact rationals extended with infinities and NaN
(binary rounding is not modelled; the numeric value of a decimal literal is
kept exact).
-/

set_option autoImplicit false

namespace Importal

/-- Model of a Python value as found in JSON-derived field configurations
and rule dictionaries. -/
inductive PyV where
  | str (s : String)
  | int (n : Int)
  | bool (b : Bool)
  | listStr (l : List String)
  | pynone
  | dict (entries : List (String × PyV))

/-- Python truthiness of a `PyV`. -/
def PyV.truthy : PyV → Bool
  | .str s => s ≠ ""
  | .int n => n ≠ 0
  | .bool b => b
  | .listStr l => !l.isEmpty
  | .pynone => false
  | .dict d => !d.isEmpty

/-- Python `str()` of a `PyV` (lists rendered approximately; the embedded
code only ever stringifies strings, ints, bools and None). -/
def PyV.pyStr : PyV → String
  | .str s => s
  | .int n => toString n
  | .bool b => if b then "True" else "False"
  | .listStr l => toString l
  | .pynone => "None"
  | .dict _ => "{...}"

/-- Python `x == "lit"` for a dynamic `x`: only a string compares equal to a
string literal. -/
def PyV.eqStr : PyV → String → Bool
  | .str t, s => t = s
  | _, _ => false

/-- A Python dict of dynamic values, modelled as an association list with
first-match lookup (keys in configurations are unique). -/
abbrev PyDict := List (String × PyV)

/-- `d.get(k)` without default: `none` when the key is missing. -/
def dictFind? (d : PyDict) (k : String) : Option PyV :=
  (d.find? (fun kv => kv.1 = k)).map (fun kv => kv.2)

/-- `d.get(k, default)`. -/
def dictGetD (d : PyDict) (k : String) (dflt : PyV) : PyV :=
  (dictFind? d k).getD dflt

/-- `d.get(k)` with Python's implicit `None` default. -/
def dictGet (d : PyDict) (k : String) : PyV :=
  dictGetD d k .pynone

/-- Whether key `k` is present in the dict. -/
def dictHas (d : PyDict) (k : String) : Bool :=
  (dictFind? d k).isSome

/-- Python `a or b` on dynamic values. -/
def pyOr (a b : PyV) : PyV :=
  if a.truthy then a else b

/-! ### Structural string helpers

Character-list implementations of the string operations the embeddings
need (byte-position-based core implementations do not reduce inside the
kernel). `Char.isWhitespace` models Python's whitespace set for the ASCII
range. -/

/-- Boolean prefix test on character lists. -/
def listIsPrefix : List Char → List Char → Bool
  | [], _ => true
  | _ :: _, [] => false
  | a :: as, b :: bs => a = b && listIsPrefix as bs

/-- `p` is a prefix of `s` (Python `s.startswith(p)`). -/
def strIsPrefixOf (p s : String) : Bool :=
  listIsPrefix p.data s.data

/-- Python `c in s` for a single character. -/
def strContainsChar (s : String) (c : Char) : Bool :=
  s.data.contains c

/-- Python `s.strip()`. -/
def strTrim (s : String) : String :=
  ⟨((s.data.dropWhile Char.isWhitespace).reverse.dropWhile
      Char.isWhitespace).reverse⟩

/-- Python `s.lower()`. -/
def strLower (s : String) : String :=
  ⟨s.data.map Char.toLower⟩

/-- Python `s.upper()`. -/
def strUpper (s : String) : String :=
  ⟨s.data.map Char.toUpper⟩

/-- Split a character list on a separator character (Python
`s.split(sep)` for a one-character separator). -/
def splitOnChar (sep : Char) (cs : List Char) : List (List Char) :=
  cs.foldr
    (fun c acc =>
      match acc with
      | cur :: rest => if c = sep then [] :: cur :: rest else (c :: cur) :: rest
      | [] => [[c]])
    [[]]

/-- An exact decimal number `m * 10 ^ k` (the value denoted by a decimal
literal with an exponent; binary float rounding is not modelled, the value
is kept exact). -/
structure Dec where
  m : Int
  k : Int
  deriving DecidableEq, Repr

/-- Whether the denoted value `m * 10 ^ k` is an integer. -/
def Dec.isInteger (d : Dec) : Bool :=
  0 ≤ d.k || d.m % ((10 : Int) ^ (-d.k).toNat) = 0

/-- Compare two exact decimals by aligning their exponents. -/
def Dec.lt (a b : Dec) : Bool :=
  if a.k ≥ b.k then a.m * (10 : Int) ^ (a.k - b.k).toNat < b.m
  else a.m < b.m * (10 : Int) ^ (b.k - a.k).toNat

/-- A CPython float obtained from `float(str)`: an exact finite decimal,
an infinity, or NaN. -/
inductive PyFloat where
  | fin (d : Dec)
  | inf
  | ninf
  | nan
  deriving DecidableEq, Repr

/-- `float.is_integer()`. Infinities are not integers; NaN is unreachable in
the embedded code paths that call this. -/
def PyFloat.isInteger : PyFloat → Bool
  | .fin d => d.isInteger
  | _ => false

/-- `x <= 0` for a parsed float (the sign of `m * 10 ^ k` is the sign of
`m`; NaN never reaches a comparison in the embedded code). -/
def PyFloat.le0 : PyFloat → Bool
  | .fin d => d.m ≤ 0
  | .inf => false
  | .ninf => true
  | .nan => false

/-- `x >= 0` for a parsed float. -/
def PyFloat.ge0 : PyFloat → Bool
  | .fin d => 0 ≤ d.m
  | .inf => true
  | .ninf => false
  | .nan => false

/-- Numeric value of a list of decimal digit characters. -/
def digitsToNat (cs : List Char) : Nat :=
  cs.foldl (fun acc c => 10 * acc + (c.toNat - '0'.toNat)) 0

/-- Helper for `underscoresOk`: `prev` is the character before the current
position, if any. -/
def underscoresOkAux : Option Char → List Char → Bool
  | _, [] => true
  | prev, '_' :: rest =>
    (match prev with
     | some p => p.isDigit
     | none => false) &&
    (match rest with
     | r :: _ => r.isDigit
     | [] => false) &&
    underscoresOkAux (some '_') rest
  | _, c :: rest => underscoresOkAux (some c) rest

/-- Check that every underscore in a CPython numeric literal sits between two
digits (the grouping rule of `float(str)`). -/
def underscoresOk (cs : List Char) : Bool :=
  underscoresOkAux none cs

/-- Lower-cased character list equality with a pattern string. -/
def charsLowerEq (cs : List Char) (s : String) : Bool :=
  (cs.map Char.toLower) = s.data

/-- Parse the digit/point/exponent part of a CPython float literal (after the
sign and underscore handling): `digits [. digits] [e [sign] digits]`, with at
least one mantissa digit. The denoted value is the exact decimal
`(intPart.fracPart) * 10 ^ exponent`. -/
def parseDecimalCore (cs : List Char) : Option Dec :=
  let intPart := cs.takeWhile Char.isDigit
  let rest1 := cs.dropWhile Char.isDigit
  let (fracPart, rest2) :=
    match rest1 with
    | '.' :: r => (r.takeWhile Char.isDigit, r.dropWhile Char.isDigit)
    | _ => ([], rest1)
  let hasDot := match rest1 with
    | '.' :: _ => true
    | _ => false
  let expo : Option Int :=
    match rest2 with
    | [] => some 0
    | 'e' :: r | 'E' :: r =>
      let (esign, edigits) :=
        match r with
        | '+' :: d => ((1 : Int), d)
        | '-' :: d => ((-1 : Int), d)
        | d => ((1 : Int), d)
      if edigits ≠ [] && edigits.all Char.isDigit then
        some (esign * (digitsToNat edigits : Int))
      else none
    | _ => none
  if intPart = [] && fracPart = [] then none
  else if !hasDot && rest1 ≠ rest2 then none
  else
    match expo with
    | none => none
    | some e =>
      some ⟨(digitsToNat (intPart ++ fracPart) : Int),
            e - (fracPart.length : Int)⟩

/-- Model of CPython `float(str)`: strip surrounding whitespace, accept an
optional sign followed by `inf`/`infinity`/`nan` (case-insensitive) or a
decimal literal with optional underscore digit grouping. -/
def pyFloat? (s : String) : Option PyFloat :=
  let cs := (strTrim s).data
  let (sign, body) :=
    match cs with
    | '+' :: r => ((1 : Int), r)
    | '-' :: r => ((-1 : Int), r)
    | r => ((1 : Int), r)
  if charsLowerEq body "inf" || charsLowerEq body "infinity" then
    some (if sign = 1 then .inf else .ninf)
  else if charsLowerEq body "nan" then
    some .nan
  else if underscoresOk body then
    match parseDecimalCore (body.filter (fun c => c ≠ '_')) with
    | some d => some (.fin ⟨sign * d.m, d.k⟩)
    | none => none
  else none

/-! ### validator.py: validate_number -/

/-- `validate_number` from app/utils/validator.py. Rejects e-mail / URL
look-alikes before parsing, parses with `float()`, rejects NaN, applies the
integer subtype rule and the sign rule read from
`validation_format or sign`. -/
def validate_number (value : String) (rules : PyDict) (field_type : String) :
    Option String :=
  if strContainsChar value '@' then
    some "Value appears to contain an email address but should be a number"
  else if strIsPrefixOf "http://" value || strIsPrefixOf "https://" value then
    some "Value appears to contain a URL but should be a number"
  else
    match pyFloat? value with
    | none => some "Must be a valid number"
    | some .nan => some "Must be a valid number"
    | some numValue =>
      if (field_type = "integer" || (dictGet rules "subtype").eqStr "integer")
          && !numValue.isInteger then
        some "Must be a whole number"
      else
        let sign := pyOr (dictGet rules "validation_format")
                         (dictGet rules "sign")
        if sign.eqStr "positive" && numValue.le0 then
          some "Must be a positive number"
        else if sign.eqStr "negative" && numValue.ge0 then
          some "Must be a negative number"
        else none

/-- `x < b` for a parsed float against a finite decimal bound. -/
def PyFloat.ltDec : PyFloat → Dec → Bool
  | .fin x, b => x.lt b
  | .inf, _ => false
  | .ninf, _ => true
  | .nan, _ => false

/-- `x > b` for a parsed float against a finite decimal bound. -/
def PyFloat.gtDec : PyFloat → Dec → Bool
  | .fin x, b => b.lt x
  | .inf, _ => true
  | .ninf, _ => false
  | .nan, _ => false

/-- `ValidationService.validate_number` (validation_service.py lines
44-91): empty short-circuit, strip, the same e-mail/URL heuristics, `float`
parse with the NaN check, the integer rule, optional min/max bounds, and
the sign rule read from `extra_rules.get('sign')` (lower-cased: a truthy
non-string sign raises, hence the `Except`). -/
def service_validate_number (value fieldName fieldType : String)
    (minValue maxValue : Option Dec) (extraRules : PyDict) :
    Except Unit (Option String) := do
  if value = "" then return none
  let sv := strTrim value
  if strContainsChar sv '@' then
    return some (fieldName ++ " appears to contain an email address but should be a number")
  if strIsPrefixOf "http://" sv || strIsPrefixOf "https://" sv then
    return some (fieldName ++ " appears to contain a URL but should be a number")
  match pyFloat? sv with
  | none => return some (fieldName ++ " must be a valid number")
  | some .nan => return some (fieldName ++ " must be a valid number")
  | some numValue =>
    if fieldType = "integer" && !numValue.isInteger then
      return some (fieldName ++ " must be a whole number")
    if let some mn := minValue then
      if numValue.ltDec mn then
        return some (fieldName ++ " must be at least " ++ toString mn.m ++
          "e" ++ toString mn.k)
    if let some mx := maxValue then
      if numValue.gtDec mx then
        return some (fieldName ++ " must be at most " ++ toString mx.m ++
          "e" ++ toString mx.k)
    if !extraRules.isEmpty then
      let signV := dictGet extraRules "sign"
      if signV.truthy then
        let signRule ←
          match signV with
          | .str s => Except.ok (strLower s)
          | _ => Except.error ()
        if signRule = "positive" && numValue.le0 then
          return some (fieldName ++ " must be a positive number")
        else if signRule = "negative" && numValue.ge0 then
          return some (fieldName ++ " must be a negative number")
    return none

/-! ### Calendar dates and the strict date formats -/

/-- Gregorian leap-year rule, as used by `datetime`. -/
def isLeap (y : Nat) : Bool :=
  y % 4 = 0 && (y % 100 ≠ 0 || y % 400 = 0)

/-- Days in a month of the proleptic Gregorian calendar. -/
def daysInMonth (y m : Nat) : Nat :=
  if m = 2 then (if isLeap y then 29 else 28)
  else if m = 4 || m = 6 || m = 9 || m = 11 then 30
  else 31

/-- Whether year/month/day form a real `datetime.date` (year at least
`MINYEAR = 1`; a four-digit year is at most 9999 = `MAXYEAR`). -/
def validYMD (y m d : Nat) : Bool :=
  1 ≤ y && 1 ≤ m && m ≤ 12 && 1 ≤ d && d ≤ daysInMonth y m

/-- Split a string into three maximal digit groups separated by single
delimiter characters (dash, slash or dot), consuming the whole string: the
language of three digit groups joined by one delimiter each, with the
delimiters allowed to be mixed, exactly as in the source regexes; the
per-group length bounds of those regexes are checked by the callers. A
maximal digit run followed by a required non-digit delimiter is equivalent
to the backtracking regex semantics because delimiters are not digits. -/
def splitDateGroups (s : String) : Option (List Char × List Char × List Char) :=
  let isDelim : Char → Bool := fun c => c = '-' || c = '/' || c = '.'
  let cs := s.data
  let g1 := cs.takeWhile Char.isDigit
  match cs.dropWhile Char.isDigit with
  | d1 :: rest1 =>
    if isDelim d1 then
      let g2 := rest1.takeWhile Char.isDigit
      match rest1.dropWhile Char.isDigit with
      | d2 :: rest2 =>
        if isDelim d2 then
          let g3 := rest2.takeWhile Char.isDigit
          match rest2.dropWhile Char.isDigit with
          | [] =>
            if g1 ≠ [] && g2 ≠ [] && g3 ≠ [] then some (g1, g2, g3) else none
          | _ => none
        else none
      | [] => none
    else none
  | [] => none

/-- Outcome of one of the four known strict-format branches of
`validate_date`. -/
inductive DateBranch where
  | noMatch
  | badDate
  | valid
  deriving DecidableEq

/-- Strict-format check shared by the MM/DD/YYYY and DD/MM/YYYY branches
(the two groups of one or two digits are month/day or day/month; the regex
and the `strptime` round-trip only depend on which group is the month). -/
def checkTwoTwoFour (s : String) (monthFirst : Bool) : DateBranch :=
  match splitDateGroups s with
  | some (g1, g2, g3) =>
    if g1.length ≤ 2 && g2.length ≤ 2 && g3.length = 4 then
      let m := if monthFirst then digitsToNat g1 else digitsToNat g2
      let d := if monthFirst then digitsToNat g2 else digitsToNat g1
      if validYMD (digitsToNat g3) m d then .valid else .badDate
    else .noMatch
  | none => .noMatch

/-- Strict-format check shared by the YYYY/MM/DD and YYYY-MM-DD branches
(same regex, same `strptime` fields, different error text only). -/
def checkFourTwoTwo (s : String) : DateBranch :=
  match splitDateGroups s with
  | some (g1, g2, g3) =>
    if g1.length = 4 && g2.length ≤ 2 && g3.length ≤ 2 then
      if validYMD (digitsToNat g1) (digitsToNat g2) (digitsToNat g3) then
        .valid
      else .badDate
    else .noMatch
  | none => .noMatch

/-- Selection of the strict-format checker and display name for the four
known formats; `none` for an unknown specific format. -/
def dateSpecificBranch (fmtUpper value : String) : Option (DateBranch × String) :=
  if fmtUpper = "MM/DD/YYYY" then some (checkTwoTwoFour value true, "MM/DD/YYYY")
  else if fmtUpper = "DD/MM/YYYY" then some (checkTwoTwoFour value false, "DD/MM/YYYY")
  else if fmtUpper = "YYYY/MM/DD" then some (checkFourTwoTwo value, "YYYY/MM/DD")
  else if fmtUpper = "YYYY-MM-DD" then some (checkFourTwoTwo value, "YYYY-MM-DD")
  else none

/-- The specific-format branch of `validate_date` (validator.py lines
78-126): `some result` when one of the four known formats fired and the
function returned inside that branch, `none` when control falls through to
the generic handling. `must` is the message opening ("Must" in
validator.py, "(field name) must" in validation_service.py). -/
def dateSpecific (must fmtUpper value : String) : Option (Option String) :=
  (dateSpecificBranch fmtUpper value).map (fun br =>
    match br.1 with
    | .noMatch => some (must ++ " be in " ++ br.2 ++ " format")
    | .badDate => some (must ++ " be a valid date in " ++ br.2 ++ " format")
    | .valid => none)

/-- `strptime(value, "%Y%m%d")` on an 8-digit string. -/
def yyyymmddOk (cs : List Char) : Bool :=
  validYMD (digitsToNat (cs.take 4)) (digitsToNat ((cs.drop 4).take 2))
    (digitsToNat (cs.drop 6))

/-- `strptime(value + "01", "%Y%m%d")` on a 6-digit string. -/
def yyyymmOk (cs : List Char) : Bool :=
  validYMD (digitsToNat (cs.take 4)) (digitsToNat (cs.drop 4)) 1

/-- Generic three-group date check used to model the `strptime` common
formats: a fixed delimiter, a four-digit year group and two groups of one or
two digits. -/
def strptimeYMD (s : String) (delim : Char) (yearFirst : Bool) : Bool :=
  match splitDateGroups s with
  | some (g1, g2, g3) =>
    -- splitDateGroups allows any of the three delimiters; restrict to the
    -- single delimiter of the strptime pattern.
    let cs := s.data
    let delimsUsed := cs.filter (fun c => c = '-' || c = '/' || c = '.')
    delimsUsed = [delim, delim] &&
    (if yearFirst then
       g1.length = 4 && g2.length ≤ 2 && g3.length ≤ 2 &&
         validYMD (digitsToNat g1) (digitsToNat g2) (digitsToNat g3)
     else
       g1.length ≤ 2 && g2.length ≤ 2 && g3.length = 4 &&
         validYMD (digitsToNat g3) (digitsToNat g1) (digitsToNat g2))
  | none => false

/-- Model of the generic acceptance used when the format is Any/absent
(validator.py lines 153-178): `datetime.fromisoformat` (modelled for plain
`YYYY-MM-DD` dates; purely numeric strings never reach this point, and the
claims proved below never depend on this branch) followed by the fixed list
of common `strptime` formats. `%Y-%m-%d %H:%M:%S` is modelled as a date part
followed by a clock part. -/
def genericDateOk (v : String) : Bool :=
  strptimeYMD v '-' true ||
  strptimeYMD v '/' true ||
  strptimeYMD v '.' true ||
  strptimeYMD v '/' false ||
  (match splitOnChar ' ' v.data with
   | [d, t] =>
     strptimeYMD (⟨d⟩ : String) '-' true &&
       (match splitOnChar ':' t with
        | [h, mi, se] =>
          h.length ≥ 1 && h.length ≤ 2 && h.all Char.isDigit &&
          mi.length ≥ 1 && mi.length ≤ 2 && mi.all Char.isDigit &&
          se.length ≥ 1 && se.length ≤ 2 && se.all Char.isDigit &&
          digitsToNat h ≤ 23 && digitsToNat mi ≤ 59 &&
          digitsToNat se ≤ 61
        | _ => false)
   | _ => false)

/-- The tail of `validate_date` after the specific-format branch declined
(validator.py lines 131-184): the numeric-only handling, then the generic
fallback (abstracted as `fallback`), then the trailing specific-format
rejection. -/
def dateTail (fallback : String → Bool) (must fmtUpper fmtDisplay value : String) :
    Option String :=
  if value.data ≠ [] && value.data.all Char.isDigit then
    if (fmtUpper = "" || fmtUpper = "ANY") &&
        ((value.length = 8 && yyyymmddOk value.data) ||
         (value.length = 6 && yyyymmOk value.data)) then
      none
    else some (must ++ " be a valid date format (not just numbers)")
  else if fmtUpper = "" || fmtUpper = "ANY" then
    if fallback value then none else some (must ++ " be a valid date format")
  else some (must ++ " be in " ++ fmtDisplay ++ " format")

/-- `validate_date` from app/utils/validator.py, parametrised by the generic
fallback acceptance so that "the fallback is never consulted" can be stated.
The `.upper()` call raises when the configured format is a truthy
non-string, hence the `Except`. -/
def validate_date_core (fallback : String → Bool) (value : String)
    (rules : PyDict) : Except Unit (Option String) := do
  let formatRule := pyOr (dictGet rules "validation_format")
                         (dictGetD rules "format" (.str ""))
  let fmtUpper ←
    if formatRule.truthy then
      match formatRule with
      | .str s => Except.ok (strUpper s)
      | _ => Except.error ()
    else Except.ok ""
  match (if fmtUpper ≠ "" && fmtUpper ≠ "ANY"
         then dateSpecific "Must" fmtUpper value else none) with
  | some res => Except.ok res
  | none => Except.ok (dateTail fallback "Must" fmtUpper formatRule.pyStr value)

/-- `ValidationService.validate_date` (validation_service.py lines
139-265): the empty short-circuit and value strip, the case-insensitive
format handling of `(date_format or "").strip()`, and the same branch
structure as validator.py with field-name-prefixed messages. -/
def service_validate_date (value fieldName : String)
    (dateFormat : Option String) : Option String :=
  if value = "" then none
  else
    let sv := strTrim value
    let fmt := strTrim (dateFormat.getD "")
    let fmtUpper := strUpper fmt
    match (if fmtUpper ≠ "" && fmtUpper ≠ "ANY"
           then dateSpecific (fieldName ++ " must") fmtUpper sv else none) with
    | some res => res
    | none => dateTail genericDateOk (fieldName ++ " must") fmtUpper fmt sv

/-- `validate_date` with the concrete generic fallback. -/
def validate_date (value : String) (rules : PyDict) :
    Except Unit (Option String) :=
  validate_date_core genericDateOk value rules

/-! ### validator.py: the remaining type validators -/

/-- `validate_boolean` from app/utils/validator.py. The template is read
from `template or validation_format or format-with-default-any`; `.lower()`
raises on a truthy non-string. -/
def validate_boolean (value : String) (rules : PyDict) :
    Except Unit (Option String) := do
  let template0 := pyOr (pyOr (dictGet rules "template")
                              (dictGet rules "validation_format"))
                        (dictGetD rules "format" (.str "any"))
  let tl ←
    match template0 with
    | .str s => Except.ok (strLower s)
    | _ => Except.error ()
  let template :=
    if tl = "true/false" || tl = "true_false" then "true/false"
    else if tl = "yes/no" || tl = "yes_no" then "yes/no"
    else if tl = "1/0" || tl = "1_0" then "1/0"
    else if tl = "on/off" || tl = "on_off" then "on/off"
    else "any"
  let allowed : List String :=
    if template = "true/false" then ["true", "false", "t", "f"]
    else if template = "yes/no" then ["yes", "no", "y", "n"]
    else if template = "1/0" then ["1", "0"]
    else if template = "on/off" then ["on", "off"]
    else ["true", "false", "yes", "no", "1", "0", "on", "off",
          "t", "f", "y", "n"]
  let val := strLower value
  if val ∈ allowed then
    Except.ok none
  else
    let displayTemplate :=
      if template = "any" then "any of: true/false, yes/no, 1/0, on/off"
      else template
    Except.ok (some ("Must be a valid boolean value (" ++ displayTemplate ++ ")"))

/-- Whether a domain part contains an interior dot, matching the
backtracking of `[^\s@]+\.[^\s@]+`. -/
def interiorDot (cs : List Char) : Bool :=
  match cs with
  | [] => false
  | [_] => false
  | _ :: rest => ('.' ∈ rest.dropLast)

/-- `validate_email`: the regex `^[^\s@]+@[^\s@]+\.[^\s@]+$` (exactly one
`@`, no whitespace, an interior dot in the domain; inputs reach this
pre-stripped so the end-of-string newline subtlety of `$` is immaterial). -/
def validate_email (value : String) : Option String :=
  let parts := splitOnChar '@' value.data
  let ok :=
    match parts with
    | [localPart, domain] =>
      !localPart.isEmpty && !domain.isEmpty &&
      !(value.data.any Char.isWhitespace) &&
      (domain.length ≥ 3 && interiorDot domain)
    | _ => false
  if ok then none else some "Must be a valid email address"

/-- `validate_phone`: the regex `^[\+]?[ -\d\s\-\(\)]{7,15}$` (an optional
leading plus, then 7 to 15 characters drawn from digits, whitespace, dashes
and parentheses). -/
def validate_phone (value : String) : Option String :=
  let body :=
    match value.data with
    | '+' :: rest => rest
    | cs => cs
  let classOk : Char → Bool := fun c =>
    c.isDigit || c.isWhitespace || c = ' ' || c = '-' || c = '(' || c = ')'
  if body.length ≥ 7 && body.length ≤ 15 && body.all classOk then none
  else some "Must be a valid phone number"

/-- `validate_url`: `urlparse` must produce a scheme and a netloc (modelled
as `scheme://netloc...` with a well-formed scheme and nonempty netloc). -/
def validate_url (value : String) : Option String :=
  let schemeChars := value.data.takeWhile (fun c => c ≠ ':')
  let rest := value.data.dropWhile (fun c => c ≠ ':')
  let schemeOk :=
    match schemeChars with
    | [] => false
    | c :: cs => c.isAlpha &&
        cs.all (fun d => d.isAlphanum || d = '+' || d = '-' || d = '.')
  let ok :=
    match rest with
    | ':' :: '/' :: '/' :: netlocRest =>
      schemeOk &&
        !(netlocRest.takeWhile
            (fun c => c ≠ '/' && c ≠ '?' && c ≠ '#')).isEmpty
    | _ => false
  if ok then none else some "Must be a valid URL"

/-- Python `len(value) > bound` where `bound` is a dynamic value: ints and
bools compare, other types raise `TypeError`. -/
def pyLenGt (len : Nat) (bound : PyV) : Except Unit Bool :=
  match bound with
  | .int n => Except.ok ((len : Int) > n)
  | .bool b => Except.ok ((len : Int) > (if b then 1 else 0))
  | _ => Except.error ()

/-- Python `len(value) < bound` for a dynamic bound. -/
def pyLenLt (len : Nat) (bound : PyV) : Except Unit Bool :=
  match bound with
  | .int n => Except.ok ((len : Int) < n)
  | .bool b => Except.ok ((len : Int) < (if b then 1 else 0))
  | _ => Except.error ()

/-- `validate_string` from app/utils/validator.py: truthy `max_length` /
`min_length` bounds are compared against `len(value)`; a truthy non-numeric
bound raises. -/
def validate_string (value : String) (rules : PyDict) :
    Except Unit (Option String) := do
  let maxLength := dictGet rules "max_length"
  let minLength := dictGet rules "min_length"
  if maxLength.truthy then
    if (← pyLenGt value.length maxLength) then
      return some ("Exceeds maximum length of " ++ maxLength.pyStr ++
                   " characters")
  if minLength.truthy then
    if (← pyLenLt value.length minLength) then
      return some ("Must be at least " ++ minLength.pyStr ++ " characters")
  return none

/-- `validate_enum` from app/utils/validator.py: case-insensitive
membership in `rules.get('options', [])` when that is truthy. Iterating a
string yields its characters; iterating a non-iterable raises. -/
def validate_enum (value : String) (rules : PyDict) :
    Except Unit (Option String) := do
  let options := dictGetD rules "options" (.listStr [])
  if options.truthy then
    let optionsList ←
      match options with
      | .listStr l => Except.ok l
      | .str s => Except.ok (s.data.map (fun c => String.singleton c))
      | _ => Except.error ()
    if strLower value ∈ optionsList.map strLower then
      return none
    else
      return some ("Must be one of: " ++ String.intercalate ", " optionsList)
  else
    return none

/-! ### validator.py: validate_field -/

/-- The keys of the `validators` dispatch map in app/utils/validator.py. -/
def validatorTypeNames : List String :=
  ["number", "integer", "date", "datetime", "email", "phone", "url",
   "boolean", "string", "select", "enum"]

/-- `validators.get(field_type)` (validator.py line 345, executed outside
the try/except): a string key hits the map or misses; numbers, booleans
and None are hashable and miss; a list or dict key raises
`TypeError: unhashable type`, which propagates out of `validate_field`. -/
def validatorName (fieldType : PyV) : Except Unit (Option String) :=
  match fieldType with
  | .str s => .ok (if s ∈ validatorTypeNames then some s else none)
  | .int _ => .ok none
  | .bool _ => .ok none
  | .pynone => .ok none
  | .listStr _ => .error ()
  | .dict _ => .error ()

/-- The rule-merging block of `validate_field` (validator.py lines 351-379):
top-level `extra_rules` (when a truthy dict), overridden by a nested
`validation.extra_rules` dict, then the remaining `validation` entries that
do not collide. First-match lookup makes list concatenation the dict-update
with the same priorities. -/
def mergedRules (cfg : PyDict) : PyDict :=
  let topExtra := dictGet cfg "extra_rules"
  let base :=
    match topExtra with
    | .dict d => if topExtra.truthy then d else []
    | _ => []
  let legacy := pyOr (dictGet cfg "validation") (.dict [])
  match legacy with
  | .dict ld =>
    let nested :=
      match dictFind? ld "extra_rules" with
      | some (.dict nd) => nd
      | _ => []
    let rest := ld.filter (fun kv =>
      kv.1 ≠ "extra_rules" && !dictHas base kv.1 && !dictHas nested kv.1)
    nested ++ base ++ rest
  | _ => base

/-- Dispatch to the type validator with the merged rules (the `try` body of
validator.py lines 385-390). -/
def runValidator (vname : String) (value : String) (rules : PyDict) :
    Except Unit (Option String) :=
  match vname with
  | "number" => Except.ok (validate_number value rules "number")
  | "integer" => Except.ok (validate_number value rules "integer")
  | "date" => validate_date value rules
  | "datetime" => validate_date value rules
  | "email" => Except.ok (validate_email value)
  | "phone" => Except.ok (validate_phone value)
  | "url" => Except.ok (validate_url value)
  | "boolean" => validate_boolean value rules
  | "string" => validate_string value rules
  | "select" => validate_enum value rules
  | "enum" => validate_enum value rules
  | _ => Except.ok none

/-- `validate_field` from app/utils/validator.py: required check, empty
short-circuit, validator dispatch, rule merging, and the catch-all that
converts any validator exception into the fixed internal-error message.
The dispatch `validators.get(field_type)` sits outside the try/except, so
its `TypeError` on an unhashable (list or dict) type value propagates as
the `.error` case. -/
def validate_field (value : PyV) (cfg : PyDict) :
    Except Unit (Option String) :=
  let fieldName :=
    match dictFind? cfg "name" with
    | some v => v.pyStr
    | none => "Field"
  let fieldType := dictGet cfg "type"
  if (dictGet cfg "required").truthy &&
      (!value.truthy || strTrim value.pyStr = "") then
    .ok (some (fieldName ++ " is required"))
  else if !value.truthy || strTrim value.pyStr = "" then
    .ok none
  else
    match validatorName fieldType with
    | .error _ => .error ()
    | .ok none => .ok none
    | .ok (some vname) =>
      match runValidator vname (strTrim value.pyStr) (mergedRules cfg) with
      | .error _ => .ok (some "Validation failed due to internal error")
      | .ok r => .ok r

/-! ### Import-job state and conflicts -/

/-- The `ImportStatus` enum from app/models/import_job.py. -/
inductive ImportStatus where
  | pending_validation
  | pending
  | processing
  | promoting
  | saving
  | validating
  | validated
  | importing
  | completed
  | uncompleted
  | failed
  deriving DecidableEq, Repr

/-- The `row` entry of a stored conflict: the 1-based row number or the
structural sentinel `"Header"`. -/
inductive RowKey where
  | header
  | num (n : Int)
  deriving DecidableEq, Repr

/-- One stored validation failure, as the JSON objects kept in
`import_job.errors`. `field`/`column` are `Option` because the different
producers emit different key sets (api_worker emits `column` only, the
portal paths emit `field`, the save paths emit both); the message text is
kept in `error` for the worker's `message` key as well. -/
structure Conflict where
  row : RowKey
  field : Option String
  column : Option String
  value : String
  error : String
  deriving DecidableEq, Repr

/-- First-match lookup in a string-to-string association list. -/
def lookupStr (m : List (String × String)) (k : String) : Option String :=
  (m.find? (fun kv => kv.1 = k)).map (fun kv => kv.2)

/-- A data row in its database-resident dict form (column name to value). -/
abbrev DictRow := List (String × String)

/-- `existing_row.get(column_header, '')`. -/
def rowGet (row : DictRow) (h : String) : String :=
  (lookupStr row h).getD ""

/-- Build `csv_column_to_field` from the stored field-to-column mapping
(imports.py lines 2102-2105 and 2291-2297): entries with a falsy column or
an underscore-prefixed field name are skipped; dict assignment makes the
last write to a column win. -/
def csvColumnToField (columnMapping : List (String × String)) :
    List (String × String) :=
  columnMapping.foldl
    (fun acc fc =>
      if fc.2 ≠ "" && !strIsPrefixOf "_" fc.1 then
        acc.filter (fun kv => kv.1 ≠ fc.2) ++ [(fc.2, fc.1)]
      else acc)
    []

/-- A per-field cell validator: the composition of
`field_configs_by_name.get` (`none` when the field has no configuration)
with `validation_service.validate_field` under that configuration. -/
abbrev FieldCfgMap := String → Option (String → Option String)

/-- Reconstruction of one row dict from positional values (imports.py lines
2167-2172 and 2349-2360): one entry per header, padded with the empty
string. -/
def toDictRow (headers : List String) (row : List String) : DictRow :=
  (List.range headers.length).map (fun i => (headers.getD i "", row.getD i ""))

/-- The conflict produced for one cell of a full validation pass
(revalidate_and_save_job lines 2310-2342): positions beyond the row are
skipped, unmapped columns are skipped, fields without configuration are
skipped, and a validator message becomes a conflict with both `field` and
`column` recorded. -/
def cellError (fieldCfg : FieldCfgMap) (mm : List (String × String))
    (headers : List String) (rows : List (List String)) (ri ci : Nat) :
    Option Conflict :=
  let row := rows.getD ri []
  if ci < row.length then
    let ch := headers.getD ci ""
    match lookupStr mm ch with
    | some f =>
      match fieldCfg f with
      | some V =>
        match V (row.getD ci "") with
        | some msg =>
          some ⟨.num ((ri : Int) + 1), some f, some ch, row.getD ci "", msg⟩
        | none => none
      | none => none
    | none => none
  else none

/-- Full revalidation of every mapped cell (the validation loop of
`revalidate_and_save_job`). -/
def fullValidate (fieldCfg : FieldCfgMap) (mm : List (String × String))
    (headers : List String) (rows : List (List String)) : List Conflict :=
  (List.range rows.length).flatMap
    (fun ri => (List.range headers.length).filterMap (cellError fieldCfg mm headers rows ri))

/-! ### optimized_save_and_validate (diff-based save) -/

/-- One entry of `changed_cells`: row index, column index, column header and
the incoming cell value. -/
structure ChangedCell where
  ri : Nat
  ci : Nat
  header : String
  value : String
  deriving DecidableEq, Repr

/-- Decide whether position `(ri, ci)` is a changed (or new-row) mapped cell
(imports.py lines 2111-2128): the column must exist and be mapped; for a row
index beyond the stored data every such cell counts, otherwise the
stringified incoming value must differ from the stored dict value. -/
def cellChanged (mm : List (String × String)) (headers : List String)
    (existingData : List DictRow) (newData : List (List String))
    (ri ci : Nat) : Bool :=
  ci < headers.length &&
  (lookupStr mm (headers.getD ci "")).isSome &&
  (if ri < existingData.length then
     (newData.getD ri []).getD ci "" ≠
       rowGet (existingData.getD ri []) (headers.getD ci "")
   else true)

/-- The `changed_cells` list of the diff-based save. -/
def changedCells (mm : List (String × String)) (headers : List String)
    (existingData : List DictRow) (newData : List (List String)) :
    List ChangedCell :=
  (List.range newData.length).flatMap (fun ri =>
    (List.range (newData.getD ri []).length).filterMap (fun ci =>
      if cellChanged mm headers existingData newData ri ci then
        some ⟨ri, ci, headers.getD ci "", (newData.getD ri []).getD ci ""⟩
      else none))

/-- Validation of one changed cell (imports.py lines 2134-2148). -/
def changedCellError (fieldCfg : FieldCfgMap) (mm : List (String × String))
    (c : ChangedCell) : Option Conflict :=
  match lookupStr mm c.header with
  | some f =>
    match fieldCfg f with
    | some V =>
      match V c.value with
      | some msg => some ⟨.num ((c.ri : Int) + 1), some f, some c.header, c.value, msg⟩
      | none => none
    | none => none
  | none => none

/-- `(row - 1, field-or-column)` of a stored error (imports.py line 2159);
Python raises a `TypeError` on `"Header" - 1`, so a structural row makes the
whole save raise. The field key uses the two-level `.get` default chain: the
`field` entry when the key is present (even if empty), else `column`, else
the empty string. -/
def errorPos (e : Conflict) : Except Unit (Int × String) :=
  match e.row with
  | .num n =>
    .ok (n - 1, match e.field with
                | some f => f
                | none => e.column.getD "")
  | .header => .error ()

/-- Result record of the diff-based save. -/
structure SaveOutcome where
  data : List DictRow
  errors : List Conflict
  errorCount : Nat
  status : ImportStatus
  validatedCells : Nat
  newErrorCount : Nat
  preservedErrorCount : Nat
  deriving DecidableEq, Repr

/-- Header resolution of the diff-based save (imports.py lines 2092-2095):
the provided headers when nonempty, else the keys of the first stored
row. -/
def resolvedHeaders (processedData : Option (List DictRow))
    (headersParam : Option (List String)) : List String :=
  let headers0 := headersParam.getD []
  if headers0.isEmpty then
    match processedData.getD [] with
    | [] => []
    | r :: _ => r.map (fun kv => kv.1)
  else headers0

/-- The fresh errors of the diff-based save: validation of the changed
cells only. -/
def diffNewErrors (fieldCfg : FieldCfgMap) (mm : List (String × String))
    (headers : List String) (existingData : List DictRow)
    (newData : List (List String)) : List Conflict :=
  (changedCells mm headers existingData newData).filterMap
    (changedCellError fieldCfg mm)

/-- The `changed_positions` set of the diff-based save (imports.py lines
2155-2156). -/
def diffChangedPositions (mm : List (String × String)) (headers : List String)
    (existingData : List DictRow) (newData : List (List String)) :
    List (Int × String) :=
  (changedCells mm headers existingData newData).map
    (fun c => ((c.ri : Int), (lookupStr mm c.header).getD c.header))

/-- The carried-over errors: prior errors (tagged with their positions)
whose position was not re-validated. -/
def diffUnchanged (tagged : List (Conflict × (Int × String)))
    (positions : List (Int × String)) : List Conflict :=
  (tagged.filter (fun ep => ep.2 ∉ positions)).map (fun ep => ep.1)

/-- The pure assembly of the diff-based save outcome, given the
position-tagged prior errors. -/
def saveOutcomeCore (fieldCfg : FieldCfgMap)
    (columnMapping : List (String × String))
    (processedData : Option (List DictRow))
    (headersParam : Option (List String)) (newData : List (List String))
    (tagged : List (Conflict × (Int × String))) : SaveOutcome :=
  let existingData := processedData.getD []
  let allColumnHeaders := resolvedHeaders processedData headersParam
  let mm := csvColumnToField columnMapping
  let changed := changedCells mm allColumnHeaders existingData newData
  let newErrors := diffNewErrors fieldCfg mm allColumnHeaders existingData newData
  let unchangedErrors := diffUnchanged tagged
    (diffChangedPositions mm allColumnHeaders existingData newData)
  let allErrors := unchangedErrors ++ newErrors
  { data := newData.map (toDictRow allColumnHeaders)
    errors := allErrors
    errorCount := allErrors.length
    status := if allErrors.length = 0 then .completed else .uncompleted
    validatedCells := changed.countP
      (fun c => ((lookupStr mm c.header).bind fieldCfg).isSome)
    newErrorCount := newErrors.length
    preservedErrorCount := unchangedErrors.length }

/-- `optimized_save_and_validate` (imports.py lines 2083-2208): resolve the
headers, diff against the stored data, validate only changed cells, carry
over prior errors whose `(row, field)` position was not re-validated,
rebuild the dict rows, and set `error_count` and the COMPLETED/UNCOMPLETED
status from the combined error list. Computing a prior error's position
raises on a structural `"Header"` row, in which case the endpoint falls
back to the legacy save. -/
def optimizedSaveAndValidate (fieldCfg : FieldCfgMap)
    (columnMapping : List (String × String))
    (processedData : Option (List DictRow)) (errors0 : List Conflict)
    (headersParam : Option (List String)) (newData : List (List String)) :
    Except Unit SaveOutcome := do
  let tagged ← errors0.mapM (fun e => (errorPos e).map (fun p => (e, p)))
  return saveOutcomeCore fieldCfg columnMapping processedData headersParam
    newData tagged

/-! ### revalidate_and_save_job (legacy bulk save) -/

/-- Header resolution of the legacy save (imports.py lines 2254-2280):
stored data first, then file metadata, then the provided headers, then
generic `Column_i` names. -/
def legacyHeaders (processedData : Option (List DictRow))
    (fileMetaHeaders : Option (List String)) (provided : Option (List String))
    (rows : List (List String)) : List String :=
  let h1 :=
    match processedData with
    | some (r :: _) => r.map (fun kv => kv.1)
    | _ => []
  let h2 := if h1.isEmpty then (fileMetaHeaders.getD []) else h1
  let h3 := if h2.isEmpty then (provided.getD []) else h2
  if h3.isEmpty then
    match rows with
    | r :: _ => (List.range r.length).map (fun i => "Column_" ++ toString i)
    | [] => []
  else h3

/-- Result record of the legacy save worker. -/
structure LegacyOutcome where
  status : ImportStatus
  errors : List Conflict
  errorCount : Nat
  data : List DictRow
  errorMessage : Option String
  deriving DecidableEq, Repr

/-- `revalidate_and_save_job` (imports.py lines 2228-2383): fail when the
importer is missing or no column structure can be resolved; otherwise fully
revalidate every mapped cell and store the result — deliberately always
with status UNCOMPLETED (lines 2378-2381), regardless of the error count. -/
def revalidateAndSaveJob (fieldCfg : FieldCfgMap) (importerFound : Bool)
    (columnMapping : List (String × String))
    (processedData : Option (List DictRow))
    (fileMetaHeaders : Option (List String)) (provided : Option (List String))
    (rows : List (List String)) : LegacyOutcome :=
  if !importerFound then
    { status := .failed, errors := [], errorCount := 0, data := [],
      errorMessage := some "Importer configuration not found during re-validation." }
  else
    let headers := legacyHeaders processedData fileMetaHeaders provided rows
    if headers.isEmpty then
      { status := .failed, errors := [], errorCount := 0, data := [],
        errorMessage := some "No column structure found for revalidation." }
    else
      let mm := csvColumnToField columnMapping
      let errs := fullValidate fieldCfg mm headers rows
      { status := .uncompleted, errors := errs, errorCount := errs.length,
        data := rows.map (toDictRow headers), errorMessage := none }

/-! ### update_cell (single-cell edit) -/

/-- Translate a CSV column key to the importer field name through the stored
mapping (imports.py lines 1913-1920): the first mapping entry whose column
equals the key wins, defaulting to the key itself. -/
def fieldNameFor (columnMapping : List (String × String)) (colKey : String) :
    String :=
  match columnMapping.find? (fun fc => fc.2 = colKey) with
  | some fc => fc.1
  | none => colKey

/-- `e.get('field') or e.get('column')` (imports.py line 1966). -/
def fieldOrKey (e : Conflict) : Option String :=
  match e.field with
  | some f => if f ≠ "" then some f else e.column
  | none => e.column

/-- Python `e.get('row') == n` for an int `n`: the structural `"Header"`
marker compares unequal without raising. -/
def rowEqInt (rk : RowKey) (n : Int) : Bool :=
  match rk with
  | .num m => m = n
  | .header => false

/-- Result record of the single-cell edit fast path. -/
structure EditOutcome where
  data : List DictRow
  errors : List Conflict
  errorCount : Nat
  status : ImportStatus
  deriving DecidableEq, Repr

/-- The error-list update of the single-cell edit (imports.py lines
1922-1975): drop any prior error for the `(row, field)` key, then append
the fresh conflict when the mapped field's validator rejects the new
value. -/
def editUpdatedErrors (fieldCfg : FieldCfgMap)
    (columnMapping : List (String × String)) (errors0 : List Conflict)
    (ri : Nat) (colKey newValue : String) : List Conflict :=
  let fieldName := fieldNameFor columnMapping colKey
  let errMsg : Option String :=
    match fieldCfg fieldName with
    | some V => V newValue
    | none => none
  let kept := errors0.filter (fun e =>
    !(rowEqInt e.row ((ri : Int) + 1) && fieldOrKey e == some fieldName))
  kept ++
    (match errMsg with
     | some m => [⟨.num ((ri : Int) + 1), some fieldName, none, newValue, m⟩]
     | none => [])

/-- The post-promotion body of `update_cell` (imports.py lines 1885-2000):
bounds and key checks (HTTP 400 modelled as the error case), in-place cell
update, single-cell validation of the mapped field, replacement of any prior
error for the `(row, field)` key, and the COMPLETED/UNCOMPLETED status
re-evaluation. -/
def updateCellEdit (fieldCfg : FieldCfgMap)
    (columnMapping : List (String × String)) (data0 : List DictRow)
    (errors0 : List Conflict) (ri : Nat) (colKey : String)
    (newValue : String) : Except Unit EditOutcome :=
  if ri ≥ data0.length then .error ()
  else if !((data0.getD ri []).map (fun kv => kv.1)).contains colKey then
    .error ()
  else
    let record := data0.getD ri []
    let data1 := data0.set ri
      (record.map (fun kv => if kv.1 = colKey then (kv.1, newValue) else kv))
    let updated := editUpdatedErrors fieldCfg columnMapping errors0 ri colKey
      newValue
    .ok { data := data1
          errors := updated
          errorCount := updated.length
          status := if updated.length = 0 then .completed else .uncompleted }

/-! ### update_cell promotion dispatch (imports.py lines 1836-1883) -/

/-- The job state read by the promotion dispatch of `update_cell`. -/
structure JobState where
  processedData : Option (List DictRow)
  filePath : Option String
  status : ImportStatus
  deriving DecidableEq, Repr

/-- Transport-level outcome of the dispatch prefix of `update_cell`. -/
inductive EditDispatch where
  | rejected425
  | badRequest400
  | proceedEdit
  deriving DecidableEq, Repr

/-- The promotion dispatch of `update_cell`: for an unpromoted job with a
raw file location, a PROMOTING status is rejected with HTTP 425 before
anything is written or scheduled; otherwise this request writes PROMOTING,
schedules the background promotion (third component `true`) and either
proceeds (if the bounded poll observes completion, oracle
`promotionFinishes`) or returns 425. An unpromoted job without a file path
is rejected with HTTP 400. The returned state records only what this
request itself wrote. -/
def updateCellDispatch (j : JobState) (promotionFinishes : Bool) :
    EditDispatch × JobState × Bool :=
  if j.processedData.isNone && j.filePath.isSome then
    if j.status = .promoting then (.rejected425, j, false)
    else
      let j1 : JobState := { j with status := .promoting }
      if promotionFinishes then (.proceedEdit, j1, true)
      else (.rejected425, j1, true)
  else if j.processedData.isNone then (.badRequest400, j, false)
  else (.proceedEdit, j, false)

/-! ### Promotion coordinator (imports.py lines 922-1189) -/

/-- One importer field as consumed by the schema checks: its name and
required flag. -/
structure ResolverField where
  name : String
  required : Bool
  deriving DecidableEq, Repr

/-- Side-effect counters of one promotion run: raw-file load attempts and
`processed_data` writes. -/
structure Effects where
  loads : Nat
  writes : Nat
  deriving DecidableEq, Repr

/-- The environment a promotion run executes in: the outcome of the raw-file
load (with its column list) and the importer configuration lookup. -/
structure PromoEnv where
  loadHeaders : List String
  loadResult : Option (List DictRow)
  importerFields : Option (List ResolverField)

/-- The job columns relevant to promotion. -/
structure PromoJob where
  processedData : Option (List DictRow)
  filePath : Option String
  columnMapping : Option (List (String × String))
  status : ImportStatus
  errorMessage : Option String
  errors : List Conflict
  errorCount : Nat
  processedRows : Nat
  deriving DecidableEq, Repr

/-- `df.rename(columns=mapping)` applied to one dict row. -/
def renameRow (mapping : List (String × String)) (row : DictRow) : DictRow :=
  row.map (fun kv => ((lookupStr mapping kv.1).getD kv.1, kv.2))

/-- The "meaningful mapping" test of imports.py line 1048:
`job.column_mapping and any(key != value for key, value in items() if value)`. -/
def meaningfulMapping (m : Option (List (String × String))) : Bool :=
  match m with
  | some l => !l.isEmpty && l.any (fun kv => kv.2 ≠ "" && kv.1 ≠ kv.2)
  | none => false

/-- Python truthiness of the stored column mapping. -/
def mappingTruthy (m : Option (List (String × String))) : Bool :=
  match m with
  | some l => !l.isEmpty
  | none => false

/-- The structural conflict recorded for one missing required field during
promotion (imports.py lines 1089-1094). -/
def promoteHeaderConflict (fieldName : String) : Conflict :=
  ⟨.header, none, some fieldName,
   "", "Required field '" ++ fieldName ++ "' is missing from the CSV file."⟩

/-- The header-compatibility check of `promote_api_job_for_editing`
(imports.py lines 1054-1102), run only when the job has no column mapping:
`some missingRequired` when the job must fail (a required field absent from
the CSV headers, or fewer than half of the importer fields present),
`none` when promotion may continue (including when the importer lookup
fails, which skips the check). -/
def promoteHeaderFailure (env : PromoEnv) (j : PromoJob) :
    Option (List String) :=
  if !meaningfulMapping j.columnMapping && !mappingTruthy j.columnMapping then
    match env.importerFields with
    | some fields =>
      let fieldNames := fields.map (fun f => f.name)
      let requiredNames :=
        (fields.filter (fun f => f.required)).map (fun f => f.name)
      let missingRequired := requiredNames.filter (fun r => r ∉ env.loadHeaders)
      let overlap := fieldNames.filter (fun n => n ∈ env.loadHeaders)
      if !missingRequired.isEmpty || 2 * overlap.length < fieldNames.length then
        some missingRequired
      else none
    | none => none
  else none

/-- The optional pending-edit application of promotion (imports.py lines
1116-1142): `none` when the edit is invalid (bad row index or missing
column key), in which case promotion fails. -/
def applyPendingEdit (pending : Option (Nat × String × String))
    (records : List DictRow) : Option (List DictRow) :=
  match pending with
  | none => some records
  | some (ri, ck, v) =>
    if ri < records.length then
      let record := records.getD ri []
      if (record.map (fun kv => kv.1)).contains ck then
        some (records.set ri
          (record.map (fun kv => if kv.1 = ck then (kv.1, v) else kv)))
      else none
    else none

/-- `promote_api_job_for_editing` (imports.py lines 979-1189) as a state
transformer with explicit effect counters: skip when `processed_data` is
already present, fail without loading when the file path is missing, attempt
the load (one load effect), run the header-compatibility check when no
mapping exists, apply the mapping when it is meaningful, optionally apply
the pending edit, and on success write `processed_data` (one write effect)
and set UNCOMPLETED while preserving an existing COMPLETED status. -/
def promoteForEditing (env : PromoEnv)
    (pending : Option (Nat × String × String)) (j : PromoJob) :
    PromoJob × Effects :=
  if j.processedData.isSome then (j, ⟨0, 0⟩)
  else if j.filePath.isNone then
    ({ j with status := .failed,
              errorMessage := some "No file path found for promotion." },
     ⟨0, 0⟩)
  else
    match env.loadResult with
    | none =>
      ({ j with status := .failed,
                errorMessage := some "Failed to load data for editing." },
       ⟨1, 0⟩)
    | some rows =>
      match promoteHeaderFailure env j with
      | some missingRequired =>
        ({ j with
             status := .failed,
             errorMessage := some "CSV headers do not match the expected importer field names. Please provide a column mapping or ensure your CSV headers match the importer configuration.",
             errors := missingRequired.map promoteHeaderConflict,
             errorCount := missingRequired.length,
             processedRows := 0 },
         ⟨1, 0⟩)
      | none =>
        let records :=
          if meaningfulMapping j.columnMapping then
            rows.map (renameRow (j.columnMapping.getD []))
          else rows
        match applyPendingEdit pending records with
        | none =>
          ({ j with status := .failed,
                    errorMessage := some "Failed to apply pending edit." },
           ⟨1, 0⟩)
        | some finalRecords =>
          ({ j with
               processedData := some finalRecords,
               status := if j.status = .completed then .completed
                         else .uncompleted },
           ⟨1, 1⟩)

/-- `promote_api_job_to_portal_managed` (imports.py lines 922-976): skip if
already promoted, load (failure sets FAILED without a write), rename through
the stored mapping whenever it is truthy, write `processed_data` and set
UNCOMPLETED unconditionally. -/
def promoteToPortalManaged (env : PromoEnv) (j : PromoJob) :
    PromoJob × Effects :=
  if j.processedData.isSome then (j, ⟨0, 0⟩)
  else if j.filePath.isNone then
    ({ j with status := .failed,
              errorMessage := some "Failed to prepare data for editing." },
     ⟨0, 0⟩)
  else
    match env.loadResult with
    | none =>
      ({ j with status := .failed,
                errorMessage := some "Failed to prepare data for editing." },
       ⟨1, 0⟩)
    | some rows =>
      let records :=
        if mappingTruthy j.columnMapping then
          rows.map (renameRow (j.columnMapping.getD []))
        else rows
      ({ j with processedData := some records, status := .uncompleted },
       ⟨1, 1⟩)

/-! ### Schema resolver of the full processing pass (api_worker.py) -/

/-- `normalize_header` (api_worker.py lines 115-121): case-fold, strip, and
drop a single trailing `s` of a plural. -/
def normalizeHeader (h : String) : String :=
  let l := strTrim (strLower h)
  if l.data.getLast? == some 's' && l.length > 1 then ⟨l.data.dropLast⟩ else l

/-- The fuzzy pass of the smart matching (api_worker.py lines 135-142): for
each still-unmatched importer field, consume the first available CSV header
with the same normalization. Python iterates unordered sets here; the model
fixes the declaration order of the lists. -/
def fuzzyMatch : List String → List String → List (String × String)
  | [], _ => []
  | f :: fs, avail =>
    match avail.find? (fun c => normalizeHeader c = normalizeHeader f) with
    | some c => (f, c) :: fuzzyMatch fs (avail.erase c)
    | none => fuzzyMatch fs avail

/-- `smart_mapping` (api_worker.py lines 123-142): exact name matches first,
then fuzzy matches over the leftovers. Sets are modelled as
first-occurrence-deduplicated lists. -/
def smartMapping (fieldNames csvHeaders : List String) :
    List (String × String) :=
  let csvSet := csvHeaders.dedup
  let names := fieldNames.dedup
  let exact := names.filter (fun f => f ∈ csvSet)
  let unmatchedFields := names.filter (fun f => f ∉ exact)
  let unmatchedCsv := csvSet.filter (fun c => c ∉ exact)
  exact.map (fun f => (f, f)) ++ fuzzyMatch unmatchedFields unmatchedCsv

/-- Invert a field-to-column mapping into `reverse_mapping`
(api_worker.py line 180); dict comprehension semantics: the last field
writing a column wins. -/
def invertMapping (m : List (String × String)) : List (String × String) :=
  m.foldl (fun acc fc => acc.filter (fun kv => kv.1 ≠ fc.2) ++ [(fc.2, fc.1)])
    []

/-- The structural conflict recorded by the worker for one missing required
field (api_worker.py lines 234-239). -/
def workerHeaderConflict (fieldName : String) : Conflict :=
  ⟨.header, none, some fieldName, "",
   "Required field '" ++ fieldName ++ "' is missing from the data file."⟩

/-- The summary conflict recorded when header validation fails without
missing required fields (api_worker.py lines 241-247). -/
def workerMappingConflict (msg : String) : Conflict :=
  ⟨.header, none, some "Mapping", "", msg⟩

/-- Outcome of the mapping/validation prefix of the full processing pass. -/
inductive ResolveOutcome where
  | failed (errorMessage : String) (errors : List Conflict) (errorCount : Nat)
  | proceed (mapping : Option (List (String × String))) (headers : List String)
  deriving DecidableEq, Repr

/-- The deduplicated importer field names (`importer_field_names`). -/
def fieldNamesOf (fields : List ResolverField) : List String :=
  (fields.map (fun f => f.name)).dedup

/-- The deduplicated required field names (`required_fields`). -/
def requiredNamesOf (fields : List ResolverField) : List String :=
  ((fields.filter (fun f => f.required)).map (fun f => f.name)).dedup

/-- The auto-created mapping of step 4 (api_worker.py lines 99-163):
`some smart_mapping` when every required field matched and anything matched
at all, `none` otherwise. -/
def autoMapping (fields : List ResolverField) (csvHeaders : List String) :
    Option (List (String × String)) :=
  let sm := smartMapping (fields.map (fun f => f.name)) csvHeaders
  let matching := sm.map (fun fc => fc.1)
  let missingRequired := (requiredNamesOf fields).filter (fun r => r ∉ matching)
  if missingRequired.isEmpty && !matching.isEmpty then some sm else none

/-- The headers after applying a truthy mapping through `reverse_mapping`
(api_worker.py lines 166-187). -/
def renamedHeaders (mapping : Option (List (String × String)))
    (csvHeaders : List String) : List String :=
  if mappingTruthy mapping then
    csvHeaders.map (fun h =>
      (lookupStr (invertMapping (mapping.getD [])) h).getD h)
  else csvHeaders

/-- Steps 4 and 5 of `process_api_import` (api_worker.py lines 95-258):
auto-create a mapping from the smart matching when none was provided and
every required field matched (and anything matched at all); rename the
columns through the inverted mapping when a mapping is in effect; then
validate the resulting headers — fail on missing required fields, fail on
an empty overlap, and fail with the partial-match message only when no
mapping was provided or auto-created. On failure the recorded errors are
one Header conflict per missing required field, plus the summary Mapping
conflict exactly when no required field is missing. -/
def resolveAndCheckHeaders (fields : List ResolverField)
    (csvHeaders : List String)
    (providedMapping : Option (List (String × String))) : ResolveOutcome :=
  let mappingNow : Option (List (String × String)) :=
    match providedMapping with
    | some m => some m
    | none => autoMapping fields csvHeaders
  let autoCreated := providedMapping.isNone &&
    (autoMapping fields csvHeaders).isSome
  let currentHeaders := renamedHeaders mappingNow csvHeaders
  let missingRequiredFields :=
    (requiredNamesOf fields).filter (fun r => r ∉ currentHeaders)
  let fieldOverlap := (fieldNamesOf fields).filter (fun n => n ∈ currentHeaders)
  if !missingRequiredFields.isEmpty then
    .failed ("Required fields are missing: " ++
             String.intercalate ", " missingRequiredFields)
      (missingRequiredFields.map workerHeaderConflict)
      missingRequiredFields.length
  else if fieldOverlap.isEmpty then
    let msg := "No matching fields found between CSV and importer configuration."
    .failed msg [workerMappingConflict msg] 1
  else if !autoCreated && !mappingTruthy mappingNow &&
      fieldOverlap.length < (fieldNamesOf fields).length then
    let msg := "Only " ++ toString fieldOverlap.length ++ " of " ++
      toString (fieldNamesOf fields).length ++
      " fields match. Please provide a column mapping."
    .failed msg [workerMappingConflict msg] 1
  else .proceed mappingNow currentHeaders

/-! ### Webhook valid/error row separation -/

/-- The error-row index scan of `process_api_import` (api_worker.py lines
352-360): 1-based conflict rows are converted to 0-based indices, stopping
at the first structural `Header` conflict (the loop breaks there and sets
the structural flag). -/
def errorRowIndicesWorker : List Conflict → List Int × Bool
  | [] => ([], false)
  | e :: rest =>
    match e.row with
    | .header => ([], true)
    | .num n =>
      let r := errorRowIndicesWorker rest
      ((n - 1) :: r.1, r.2)

/-- The webhook data split of the worker (api_worker.py lines 454-461):
start from the scanned error indices, and when any conflict carries the
structural `Header` marker make the whole dataset invalid. Rows are paired
with their 0-based index. -/
def webhookSeparation (df : List DictRow) (errors : List Conflict) :
    List (Nat × DictRow) × List (Nat × DictRow) :=
  let idxs := (errorRowIndicesWorker errors).1
  let dfIdx := (List.range df.length).map (fun i => (i, df.getD i []))
  let valid0 :=
    if !idxs.isEmpty then dfIdx.filter (fun p => ((p.1 : Int) ∉ idxs))
    else dfIdx
  let invalid0 :=
    if !idxs.isEmpty then dfIdx.filter (fun p => ((p.1 : Int) ∈ idxs))
    else []
  if errors.any (fun e => e.row == .header) then ([], dfIdx)
  else (valid0, invalid0)

/-- The legacy webhook data split of
`ImportService.send_webhook_notification` (import_service.py lines
655-679): only integer-row conflicts produce error indices (the structural
`"Header"` marker is skipped by the `isinstance` test and never forces the
dataset invalid); with no indices the whole dataset is sent as valid. -/
def legacyWebhookSeparation (df : List DictRow) (errors : List Conflict) :
    List (Nat × DictRow) × List (Nat × DictRow) :=
  let errorIndices := errors.filterMap (fun e =>
    match e.row with
    | .num n => some (n - 1)
    | .header => none)
  let dfIdx := (List.range df.length).map (fun i => (i, df.getD i []))
  if !errorIndices.isEmpty && !df.isEmpty then
    (dfIdx.filter (fun p => ((p.1 : Int) ∉ errorIndices)),
     dfIdx.filter (fun p => ((p.1 : Int) ∈ errorIndices)))
  else (dfIdx, [])

/-! ### Spec-side definitions -/

/-- The claim's acceptance rule for a declared date format, written from the
spec's words: the value must consist of exactly three digit groups joined by
single delimiters drawn from dash, slash and dot, with the group shapes and
roles dictated by the declared format, and the components must form a real
calendar date. -/
def declaredFormatAccepts (fmt v : String) : Bool :=
  match splitDateGroups v with
  | some (g1, g2, g3) =>
    if fmt = "MM/DD/YYYY" then
      g1.length ≤ 2 && g2.length ≤ 2 && g3.length = 4 &&
        validYMD (digitsToNat g3) (digitsToNat g1) (digitsToNat g2)
    else if fmt = "DD/MM/YYYY" then
      g1.length ≤ 2 && g2.length ≤ 2 && g3.length = 4 &&
        validYMD (digitsToNat g3) (digitsToNat g2) (digitsToNat g1)
    else if fmt = "YYYY/MM/DD" || fmt = "YYYY-MM-DD" then
      g1.length = 4 && g2.length ≤ 2 && g3.length ≤ 2 &&
        validYMD (digitsToNat g1) (digitsToNat g2) (digitsToNat g3)
    else false
  | none => false

/-- Projection of a stored conflict to the `(row, field, error)` record the
diff-equivalence claim compares. -/
def tripleOf (e : Conflict) : RowKey × Option String × String :=
  (e.row, e.field, e.error)

/-! ### Concrete fixtures used by witnesses and counterexamples -/

/-- A concrete cell validator that rejects exactly the value `"bad"` (used
to instantiate the abstract per-field validator in witnesses). -/
def simpleValidator : String → Option String :=
  fun v => if v = "bad" then some "invalid value" else none

/-- Field-configuration map with a single validated field named `amount`. -/
def simpleCfg : FieldCfgMap :=
  fun f => if f = "amount" then some simpleValidator else none

/-- Promotion environment whose raw-file load succeeds with one row. -/
def envC3 : PromoEnv := ⟨["c"], some [[("c", "v")]], none⟩

/-- An unpromoted API job with a known file location. -/
def jC3 : PromoJob :=
  ⟨none, some "s3://bucket/file.csv", none, .uncompleted, none, [], 0, 0⟩

/-- An unpromoted job with a file path whose status is PROMOTING. -/
def jC4 : JobState := ⟨none, some "s3://bucket/file.csv", .promoting⟩

/-! ### C3: promotion is idempotent -/

/-- A promotion run that materialises data took the success path: it wrote
`processed_data`, performed exactly one load and one write, and set the
status per the COMPLETED-preservation rule. -/
theorem promoteForEditing_success_shape (env : PromoEnv)
    (pending : Option (Nat × String × String)) (j : PromoJob)
    (h : j.processedData = none)
    (hs : (promoteForEditing env pending j).1.processedData.isSome) :
    ∃ finalRecords, promoteForEditing env pending j =
      ({ j with processedData := some finalRecords,
                status := if j.status = .completed then .completed
                          else .uncompleted }, ⟨1, 1⟩) := by
  unfold promoteForEditing at hs ⊢
  simp only [h, Option.isSome_none, Bool.false_eq_true, if_false] at hs ⊢
  cases hf : j.filePath with
  | none => simp [hf, h] at hs
  | some p =>
    simp only [hf, Option.isNone_some, Bool.false_eq_true, if_false] at hs ⊢
    cases hl : env.loadResult with
    | none => simp [hl, h] at hs
    | some rows =>
      simp only [hl] at hs ⊢
      cases hh : promoteHeaderFailure env j with
      | some mr => simp [hh, h] at hs
      | none =>
        simp only [hh] at hs ⊢
        cases hap : applyPendingEdit pending
            (if meaningfulMapping j.columnMapping = true then
               rows.map (renameRow (j.columnMapping.getD []))
             else rows) with
        | none => simp [hap, h] at hs
        | some finalRecords => exact ⟨finalRecords, by simp [hap]⟩

/-- C3: promotion checks for already-present data before doing any work:
with `processed_data` present both promotion workers return immediately
with zero file loads and zero data writes and leave the job unchanged; and
for an unpromoted job whose promotion run materialises the data, that first
run costs exactly one load and one write and a second trigger is a no-op,
so exactly one load and one write happen across both calls. -/
theorem promote_twice_single_load_write :
    (∀ (env : PromoEnv) (pending : Option (Nat × String × String)) (j : PromoJob),
       j.processedData.isSome → promoteForEditing env pending j = (j, ⟨0, 0⟩)) ∧
    (∀ (env : PromoEnv) (j : PromoJob),
       j.processedData.isSome → promoteToPortalManaged env j = (j, ⟨0, 0⟩)) ∧
    (∀ (env : PromoEnv) (pending : Option (Nat × String × String)) (j : PromoJob),
       j.processedData = none →
       (promoteForEditing env pending j).1.processedData.isSome →
       (promoteForEditing env pending j).2 = ⟨1, 1⟩ ∧
       promoteForEditing env pending (promoteForEditing env pending j).1 =
         ((promoteForEditing env pending j).1, ⟨0, 0⟩)) := by
  refine ⟨?_, ?_, ?_⟩
  · intro env pending j h
    simp [promoteForEditing, h]
  · intro env j h
    simp [promoteToPortalManaged, h]
  · intro env pending j h hs
    obtain ⟨fr, heq⟩ := promoteForEditing_success_shape env pending j h hs
    rw [heq]
    exact ⟨rfl, by simp [promoteForEditing]⟩

/-- Witness for C3 at a concrete unpromoted job whose load succeeds. -/
theorem promote_twice_single_load_write_witness :
    (promoteForEditing envC3 none jC3).2 = ⟨1, 1⟩ ∧
    promoteForEditing envC3 none (promoteForEditing envC3 none jC3).1 =
      ((promoteForEditing envC3 none jC3).1, ⟨0, 0⟩) :=
  promote_twice_single_load_write.2.2 envC3 none jC3 rfl (by decide)

/-! ### C4: edits against a PROMOTING job are rejected with 425 -/

/-- C4: an edit request against a job with no database-resident data and a
known raw file location whose status is PROMOTING is rejected with the
HTTP 425 "try again shortly" signal, starts no second promotion, and
leaves the job state unchanged; moreover the dispatch starts a promotion
only for non-PROMOTING jobs that do have a file path (so a PROMOTING job
without a file path is unreachable from this dispatch). -/
theorem update_cell_promoting_rejected :
    (∀ (j : JobState) (pf : Bool),
       j.processedData = none → j.filePath.isSome → j.status = .promoting →
       updateCellDispatch j pf = (.rejected425, j, false)) ∧
    (∀ (j : JobState) (pf : Bool),
       (updateCellDispatch j pf).2.2 = true →
       j.filePath.isSome ∧ j.status ≠ .promoting) := by
  constructor
  · intro j pf h1 h2 h3
    simp [updateCellDispatch, h1, h2, h3]
  · intro j pf h
    unfold updateCellDispatch at h
    split at h
    · rename_i hcond
      split at h
      · simp at h
      · rename_i hst
        constructor
        · exact (Bool.and_eq_true _ _ |>.mp hcond).2
        · exact hst
    · split at h <;> simp at h

/-- Witness for C4 at a concrete PROMOTING unpromoted job. -/
theorem update_cell_promoting_rejected_witness :
    updateCellDispatch jC4 false = (.rejected425, jC4, false) :=
  update_cell_promoting_rejected.1 jC4 false rfl rfl rfl

/-! ### C2: status is COMPLETED iff errorCount = 0 (edit and diff paths) -/

/-- The COMPLETED/UNCOMPLETED dichotomy of the shared status rule. -/
theorem status_if_iff (L : Nat) :
    ((if L = 0 then ImportStatus.completed else .uncompleted) = .completed ↔
      L = 0) ∧
    ((if L = 0 then ImportStatus.completed else .uncompleted) = .completed ∨
     (if L = 0 then ImportStatus.completed else .uncompleted) = .uncompleted) := by
  by_cases h : L = 0 <;> simp [h]

/-- Shape of a successful single-cell edit: errors, error count and status
are all derived from `editUpdatedErrors`. -/
theorem updateCellEdit_ok (fieldCfg : FieldCfgMap)
    (columnMapping : List (String × String)) (data0 : List DictRow)
    (errors0 : List Conflict) (ri : Nat) (colKey newValue : String)
    (out : EditOutcome)
    (h : updateCellEdit fieldCfg columnMapping data0 errors0 ri colKey
      newValue = .ok out) :
    out.errors = editUpdatedErrors fieldCfg columnMapping errors0 ri colKey
      newValue ∧
    out.errorCount = out.errors.length ∧
    out.status = (if out.errors.length = 0 then .completed else .uncompleted) := by
  unfold updateCellEdit at h
  split at h
  · simp at h
  · split at h
    · simp at h
    · simp only [Except.ok.injEq] at h
      subst h
      simp

/-- Shape of a successful diff-based save: errors, error count and status
are all derived from the combined error list. -/
theorem optimizedSave_ok (fieldCfg : FieldCfgMap)
    (columnMapping : List (String × String))
    (processedData : Option (List DictRow)) (errors0 : List Conflict)
    (headersParam : Option (List String)) (newData : List (List String))
    (out : SaveOutcome)
    (h : optimizedSaveAndValidate fieldCfg columnMapping processedData errors0
      headersParam newData = .ok out) :
    ∃ tagged,
      errors0.mapM (fun e => (errorPos e).map (fun p => (e, p))) = .ok tagged ∧
      out = saveOutcomeCore fieldCfg columnMapping processedData headersParam
        newData tagged := by
  unfold optimizedSaveAndValidate at h
  cases htag : errors0.mapM (fun e => (errorPos e).map (fun p => (e, p))) with
  | error u =>
    rw [htag] at h
    simp [Bind.bind, Except.bind] at h
  | ok tagged =>
    rw [htag] at h
    simp only [Bind.bind, Except.bind, pure, Except.pure, Except.ok.injEq] at h
    exact ⟨tagged, rfl, h.symm⟩

/-- C2 (amended): after a single-cell edit and after a diff-based save the
job status is COMPLETED exactly when the stored error count is zero and is
never any third value; the legacy bulk-save fallback, however,
deliberately always stores UNCOMPLETED once its validation pass runs,
regardless of the error count. -/
theorem save_status_iff_zero_errors :
    (∀ (fieldCfg : FieldCfgMap) (columnMapping : List (String × String))
       (data0 : List DictRow) (errors0 : List Conflict) (ri : Nat)
       (colKey newValue : String) (out : EditOutcome),
       updateCellEdit fieldCfg columnMapping data0 errors0 ri colKey newValue =
         .ok out →
       ((out.status = .completed ↔ out.errorCount = 0) ∧
        (out.status = .completed ∨ out.status = .uncompleted))) ∧
    (∀ (fieldCfg : FieldCfgMap) (columnMapping : List (String × String))
       (processedData : Option (List DictRow)) (errors0 : List Conflict)
       (headersParam : Option (List String)) (newData : List (List String))
       (out : SaveOutcome),
       optimizedSaveAndValidate fieldCfg columnMapping processedData errors0
         headersParam newData = .ok out →
       ((out.status = .completed ↔ out.errorCount = 0) ∧
        (out.status = .completed ∨ out.status = .uncompleted))) ∧
    (∀ (fieldCfg : FieldCfgMap) (columnMapping : List (String × String))
       (processedData : Option (List DictRow))
       (fileMetaHeaders : Option (List String))
       (provided : Option (List String)) (rows : List (List String)),
       legacyHeaders processedData fileMetaHeaders provided rows ≠ [] →
       (revalidateAndSaveJob fieldCfg true columnMapping processedData
         fileMetaHeaders provided rows).status = .uncompleted) := by
  refine ⟨?_, ?_, ?_⟩
  · intro fieldCfg columnMapping data0 errors0 ri colKey newValue out hok
    obtain ⟨he, hc, hs⟩ := updateCellEdit_ok fieldCfg columnMapping data0
      errors0 ri colKey newValue out hok
    rw [hs, hc]
    exact status_if_iff out.errors.length
  · intro fieldCfg columnMapping processedData errors0 headersParam newData out hok
    obtain ⟨tagged, -, hout⟩ := optimizedSave_ok fieldCfg columnMapping
      processedData errors0 headersParam newData out hok
    subst hout
    have hec : (saveOutcomeCore fieldCfg columnMapping processedData
        headersParam newData tagged).errorCount =
        (saveOutcomeCore fieldCfg columnMapping processedData headersParam
          newData tagged).errors.length := by
      simp [saveOutcomeCore]
    have hst : (saveOutcomeCore fieldCfg columnMapping processedData
        headersParam newData tagged).status =
        (if (saveOutcomeCore fieldCfg columnMapping processedData headersParam
          newData tagged).errors.length = 0 then .completed
         else .uncompleted) := by
      simp [saveOutcomeCore]
    rw [hst, hec]
    exact status_if_iff _
  · intro fieldCfg columnMapping processedData fileMetaHeaders provided rows hh
    unfold revalidateAndSaveJob
    simp [hh]

/-- Witness for C2 on the edit path and the legacy path at concrete
inputs. -/
theorem save_status_iff_zero_errors_witness :
    ((⟨[[("amt", "ok")]], [], 0, .completed⟩ : EditOutcome).status =
        .completed ↔
     (⟨[[("amt", "ok")]], [], 0, .completed⟩ : EditOutcome).errorCount = 0) ∧
    (revalidateAndSaveJob simpleCfg true [("amount", "amount")] none
      (some ["amount"]) none [["ok"]]).status = .uncompleted :=
  ⟨(save_status_iff_zero_errors.1 simpleCfg [("amount", "amt")]
      [[("amt", "1")]] [] 0 "amt" "ok"
      ⟨[[("amt", "ok")]], [], 0, .completed⟩ rfl).1,
   save_status_iff_zero_errors.2.2 simpleCfg [("amount", "amount")] none
     (some ["amount"]) none [["ok"]] (by decide)⟩

/-- Counterexample to C2 as stated: the legacy bulk-save fallback stores
status UNCOMPLETED together with an error count of zero after a successful
validation pass, so COMPLETED-iff-zero-errors fails on that path. -/
theorem legacy_save_zero_errors_uncompleted :
    (revalidateAndSaveJob simpleCfg true [("amount", "amount")] none
      (some ["amount"]) none [["ok"]]).status = .uncompleted ∧
    (revalidateAndSaveJob simpleCfg true [("amount", "amount")] none
      (some ["amount"]) none [["ok"]]).errorCount = 0 ∧
    (revalidateAndSaveJob simpleCfg true [("amount", "amount")] none
      (some ["amount"]) none [["ok"]]).errorMessage = none := by
  refine ⟨by decide, by decide, by decide⟩

/-! ### C6: number validation -/

/-- Counterexample to C6 as stated: the string `"inf"` parses to an
infinity, yet `validate_number` accepts it — only NaN is rejected after
parsing, so "non-finite values (NaN and infinities) are rejected" fails
for infinities. The service-side validator behaves identically. -/
theorem validate_number_accepts_infinity :
    validate_number "inf" [] "number" = none ∧
    pyFloat? "inf" = some .inf ∧
    service_validate_number "inf" "n" "number" none none [] = .ok none := by
  exact ⟨rfl, rfl, rfl⟩

/-- The post-parse tail of `validate_number`: the integer rule and the two
sign rules, characterised as implications. -/
theorem validate_number_tail_iff (b1 : Bool) (sgn : PyV) (x : PyFloat) :
    ((if b1 && !x.isInteger then some "Must be a whole number"
      else if sgn.eqStr "positive" && x.le0 then
        some "Must be a positive number"
      else if sgn.eqStr "negative" && x.ge0 then
        some "Must be a negative number"
      else (none : Option String)) = none) ↔
    ((b1 = true → x.isInteger = true) ∧
     (sgn.eqStr "positive" = true → x.le0 = false) ∧
     (sgn.eqStr "negative" = true → x.ge0 = false)) := by
  cases b1 <;> cases hi : x.isInteger <;> cases hp : sgn.eqStr "positive" <;>
    cases hn : sgn.eqStr "negative" <;> cases hl : x.le0 <;>
    cases hg : x.ge0 <;> simp_all

/-- C6 (amended): `validate_number` accepts a value exactly when the value
contains no `@`, does not start with `http://` or `https://` (both checked
before numeric parsing), parses as a float other than NaN, satisfies the
integer rule when one applies, and satisfies the sign rule read from
`validation_format or sign`: `positive` demands a value strictly greater
than zero and `negative` strictly less than zero (so zero fails both), with
infinities passing the parse stage and subject only to the sign rules. -/
theorem validate_number_characterization :
    ∀ (v : String) (r : PyDict) (ft : String),
      validate_number v r ft = none ↔
        (strContainsChar v '@' = false ∧
         strIsPrefixOf "http://" v = false ∧
         strIsPrefixOf "https://" v = false ∧
         ∃ x, pyFloat? v = some x ∧ x ≠ .nan ∧
           ((ft = "integer" ∨ (dictGet r "subtype").eqStr "integer" = true) →
             x.isInteger = true) ∧
           ((pyOr (dictGet r "validation_format") (dictGet r "sign")).eqStr
             "positive" = true → x.le0 = false) ∧
           ((pyOr (dictGet r "validation_format") (dictGet r "sign")).eqStr
             "negative" = true → x.ge0 = false)) := by
  intro v r ft
  unfold validate_number
  by_cases h1 : strContainsChar v '@' = true
  · simp [h1]
  rw [Bool.not_eq_true] at h1
  by_cases h2 : strIsPrefixOf "http://" v = true
  · simp [h1, h2]
  rw [Bool.not_eq_true] at h2
  by_cases h3 : strIsPrefixOf "https://" v = true
  · simp [h1, h2, h3]
  rw [Bool.not_eq_true] at h3
  simp only [h1, h2, h3, Bool.false_eq_true, if_false, Bool.or_self,
    Bool.false_or, Bool.or_false]
  cases hp : pyFloat? v with
  | none => simp
  | some x =>
    cases x with
    | nan => simp
    | fin d =>
      rw [validate_number_tail_iff
        (decide (ft = "integer") || (dictGet r "subtype").eqStr "integer")
        (pyOr (dictGet r "validation_format") (dictGet r "sign"))
        (PyFloat.fin d)]
      simp [Bool.or_eq_true, decide_eq_true_eq]
    | inf =>
      rw [validate_number_tail_iff
        (decide (ft = "integer") || (dictGet r "subtype").eqStr "integer")
        (pyOr (dictGet r "validation_format") (dictGet r "sign"))
        PyFloat.inf]
      simp [Bool.or_eq_true, decide_eq_true_eq]
    | ninf =>
      rw [validate_number_tail_iff
        (decide (ft = "integer") || (dictGet r "subtype").eqStr "integer")
        (pyOr (dictGet r "validation_format") (dictGet r "sign"))
        PyFloat.ninf]
      simp [Bool.or_eq_true, decide_eq_true_eq]

/-- Witness for C6: zero fails the positive-sign rule, a positive value
passes it, and an `@`-containing value is rejected by the heuristic. -/
theorem validate_number_characterization_witness :
    validate_number "12" [("sign", PyV.str "positive")] "number" = none ∧
    validate_number "0" [("sign", PyV.str "positive")] "number" ≠ none ∧
    validate_number "a@b" [] "number" ≠ none :=
  ⟨(validate_number_characterization "12" [("sign", PyV.str "positive")]
      "number").mpr
     ⟨rfl, rfl, rfl, .fin ⟨12, 0⟩, rfl, by simp, by decide, by decide,
      by decide⟩,
   fun h => by
     have := (validate_number_characterization "0"
       [("sign", PyV.str "positive")] "number").mp h
     rcases this with ⟨-, -, -, x, hx, -, -, hpos, -⟩
     rw [show pyFloat? "0" = some (.fin ⟨0, 0⟩) from rfl] at hx
     cases hx
     exact absurd (hpos (by decide)) (by decide),
   fun h => by
     have := (validate_number_characterization "a@b" [] "number").mp h
     exact absurd this.1 (by decide)⟩

/-! ### C5: declared date formats take precedence -/

/-- The MM/DD/YYYY strict checker accepts exactly the spec-side
declared-format language. -/
theorem checkTwoTwoFour_mmdd_iff (v : String) :
    (checkTwoTwoFour v true = .valid) ↔
      declaredFormatAccepts "MM/DD/YYYY" v = true := by
  unfold checkTwoTwoFour declaredFormatAccepts
  cases hs : splitDateGroups v with
  | none => simp
  | some g =>
    obtain ⟨g1, g2, g3⟩ := g
    by_cases h1 : g1.length ≤ 2 <;> by_cases h2 : g2.length ≤ 2 <;>
      by_cases h3 : g3.length = 4 <;>
      cases hd : validYMD (digitsToNat g3) (digitsToNat g1) (digitsToNat g2) <;>
      simp_all <;> (try (split <;> simp))

/-- The DD/MM/YYYY strict checker accepts exactly the spec-side
declared-format language. -/
theorem checkTwoTwoFour_ddmm_iff (v : String) :
    (checkTwoTwoFour v false = .valid) ↔
      declaredFormatAccepts "DD/MM/YYYY" v = true := by
  unfold checkTwoTwoFour declaredFormatAccepts
  cases hs : splitDateGroups v with
  | none => simp
  | some g =>
    obtain ⟨g1, g2, g3⟩ := g
    by_cases h1 : g1.length ≤ 2 <;> by_cases h2 : g2.length ≤ 2 <;>
      by_cases h3 : g3.length = 4 <;>
      cases hd : validYMD (digitsToNat g3) (digitsToNat g2) (digitsToNat g1) <;>
      simp_all <;> (try (split <;> simp))

/-- The year-first strict checker accepts exactly the spec-side
declared-format language (shared by YYYY/MM/DD and YYYY-MM-DD). -/
theorem checkFourTwoTwo_iff (v : String) (fmt : String)
    (h : fmt = "YYYY/MM/DD" ∨ fmt = "YYYY-MM-DD") :
    (checkFourTwoTwo v = .valid) ↔ declaredFormatAccepts fmt v = true := by
  unfold checkFourTwoTwo declaredFormatAccepts
  cases hs : splitDateGroups v with
  | none => rcases h with h | h <;> simp [h]
  | some g =>
    obtain ⟨g1, g2, g3⟩ := g
    rcases h with h | h <;> subst h <;>
      (by_cases h1 : g1.length = 4 <;> by_cases h2 : g2.length ≤ 2 <;>
        by_cases h3 : g3.length ≤ 2 <;>
        cases hd : validYMD (digitsToNat g1) (digitsToNat g2) (digitsToNat g3) <;>
        simp_all <;> (try (split <;> simp)))

/-- Unfolding of `dateSpecific` on a recognised branch. -/
theorem dateSpecific_known (must fmtU v : String) (b : DateBranch × String)
    (hb : dateSpecificBranch fmtU v = some b) :
    dateSpecific must fmtU v = some
      (match b.1 with
       | .noMatch => some (must ++ " be in " ++ b.2 ++ " format")
       | .badDate => some (must ++ " be a valid date in " ++ b.2 ++ " format")
       | .valid => none) := by
  unfold dateSpecific
  rw [hb]
  rfl

/-- `validate_date_core` on a configured specific format: the result is the
specific branch's result, for any generic fallback. -/
theorem validate_date_core_specific (fb : String → Bool) (v : String)
    (rules : PyDict) (s : String) (res : Option String)
    (hfr : pyOr (dictGet rules "validation_format")
      (dictGetD rules "format" (.str "")) = .str s)
    (hne : s ≠ "")
    (hU1 : strUpper s ≠ "") (hU2 : strUpper s ≠ "ANY")
    (hdate : dateSpecific "Must" (strUpper s) v = some res) :
    validate_date_core fb v rules = .ok res := by
  unfold validate_date_core
  rw [hfr]
  simp [PyV.truthy, hne, hU1, hU2, Bind.bind, Except.bind, hdate]

/-- C5: for a date rule whose configured format upper-cases to one of the
four known strict formats, the value is accepted exactly when it lies in
the declared-format language (three digit groups with dash/slash/dot
delimiters forming a real calendar date in the declared component order);
the generic fallback is never consulted (the result is the same for every
fallback); the ISO date `2024-01-05` is rejected under `MM/DD/YYYY`; and
the service-side validator agrees. -/
theorem date_declared_format_precedence (rules : PyDict) (v s : String)
    (hfr : pyOr (dictGet rules "validation_format")
      (dictGetD rules "format" (.str "")) = .str s)
    (hfmt : strUpper s ∈
      (["MM/DD/YYYY", "DD/MM/YYYY", "YYYY/MM/DD", "YYYY-MM-DD"] :
        List String)) :
    (validate_date v rules = .ok none ↔
      declaredFormatAccepts (strUpper s) v = true) ∧
    (∀ fb1 fb2, validate_date_core fb1 v rules = validate_date_core fb2 v rules) ∧
    validate_date "2024-01-05" [("format", PyV.str "MM/DD/YYYY")] =
      .ok (some "Must be in MM/DD/YYYY format") ∧
    (∀ (fieldName : String) (dfmt : Option String), v ≠ "" → strTrim v = v →
       strUpper (strTrim (dfmt.getD "")) = strUpper s →
       (service_validate_date v fieldName dfmt = none ↔
        declaredFormatAccepts (strUpper s) v = true)) := by
  have hfmt4 : strUpper s = "MM/DD/YYYY" ∨ strUpper s = "DD/MM/YYYY" ∨
      strUpper s = "YYYY/MM/DD" ∨ strUpper s = "YYYY-MM-DD" := by
    simpa using hfmt
  have hne : s ≠ "" := by
    intro h
    subst h
    have he : strUpper "" = "" := rfl
    rw [he] at hfmt4
    rcases hfmt4 with h | h | h | h <;> exact absurd h (by decide)
  have hbranch : ∀ must, ∃ res,
      dateSpecific must (strUpper s) v = some res ∧
      (res = none ↔ declaredFormatAccepts (strUpper s) v = true) := by
    intro must
    rcases hfmt4 with h | h | h | h <;> rw [h]
    · refine ⟨_, dateSpecific_known must "MM/DD/YYYY" v
        (checkTwoTwoFour v true, "MM/DD/YYYY") rfl, ?_⟩
      have hiff := checkTwoTwoFour_mmdd_iff v
      cases hc : checkTwoTwoFour v true <;> simp_all
    · refine ⟨_, dateSpecific_known must "DD/MM/YYYY" v
        (checkTwoTwoFour v false, "DD/MM/YYYY") rfl, ?_⟩
      have hiff := checkTwoTwoFour_ddmm_iff v
      cases hc : checkTwoTwoFour v false <;> simp_all
    · refine ⟨_, dateSpecific_known must "YYYY/MM/DD" v
        (checkFourTwoTwo v, "YYYY/MM/DD") rfl, ?_⟩
      have hiff := checkFourTwoTwo_iff v "YYYY/MM/DD" (Or.inl rfl)
      cases hc : checkFourTwoTwo v <;> simp_all
    · refine ⟨_, dateSpecific_known must "YYYY-MM-DD" v
        (checkFourTwoTwo v, "YYYY-MM-DD") rfl, ?_⟩
      have hiff := checkFourTwoTwo_iff v "YYYY-MM-DD" (Or.inr rfl)
      cases hc : checkFourTwoTwo v <;> simp_all
  have hU1 : strUpper s ≠ "" := by
    rcases hfmt4 with h | h | h | h <;> rw [h] <;> decide
  have hU2 : strUpper s ≠ "ANY" := by
    rcases hfmt4 with h | h | h | h <;> rw [h] <;> decide
  obtain ⟨res, hres, hiff⟩ := hbranch "Must"
  refine ⟨?_, ?_, rfl, ?_⟩
  · rw [show validate_date v rules = .ok res from
      validate_date_core_specific genericDateOk v rules s res hfr hne hU1 hU2 hres]
    simp only [Except.ok.injEq]
    exact hiff
  · intro fb1 fb2
    rw [validate_date_core_specific fb1 v rules s res hfr hne hU1 hU2 hres,
      validate_date_core_specific fb2 v rules s res hfr hne hU1 hU2 hres]
  · intro fieldName dfmt hv hstrip hfmteq
    obtain ⟨res2, hres2, hiff2⟩ := hbranch (fieldName ++ " must")
    have hsv : service_validate_date v fieldName dfmt = res2 := by
      unfold service_validate_date
      rw [if_neg hv]
      simp only [hstrip, hfmteq, hU1, hU2, hres2, ne_eq, not_false_eq_true,
        decide_True, Bool.and_self, if_true]
    rw [hsv]
    exact hiff2

/-- Witness for C5: a valid MM/DD/YYYY value is accepted, the ISO form is
rejected, and the service validator agrees on both. -/
theorem date_declared_format_precedence_witness :
    (validate_date "01/05/2024" [("format", PyV.str "MM/DD/YYYY")] = .ok none ↔
      declaredFormatAccepts "MM/DD/YYYY" "01/05/2024" = true) ∧
    (service_validate_date "2024-01-05" "d" (some "MM/DD/YYYY") = none ↔
      declaredFormatAccepts "MM/DD/YYYY" "2024-01-05" = true) :=
  ⟨by
     have h := (date_declared_format_precedence
       [("format", PyV.str "MM/DD/YYYY")] "01/05/2024" "MM/DD/YYYY" rfl
       (by decide)).1
     simpa using h,
   by
     have h := ((date_declared_format_precedence
       [("format", PyV.str "MM/DD/YYYY")] "2024-01-05" "MM/DD/YYYY" rfl
       (by decide)).2.2.2 "d" (some "MM/DD/YYYY") (by decide) rfl rfl)
     simpa using h⟩

/-! ### C10: validate_field is total and defensive -/

/-- Filtering out one key leaves lookups of other keys unchanged. -/
theorem dictFind?_filter_ne (cfg : PyDict) (k x : String) (hk : k ≠ x) :
    dictFind? (cfg.filter (fun kv => kv.1 ≠ x)) k = dictFind? cfg k := by
  induction cfg with
  | nil => rfl
  | cons kv rest ih =>
    by_cases h1 : kv.1 = x
    · have hne : kv.1 ≠ k := by
        rw [h1]
        exact fun h => hk h.symm
      simp only [dictFind?, List.filter_cons, List.find?_cons, h1, hne] at ih ⊢
      simp_all [dictFind?]
    · by_cases h2 : kv.1 = k
      · simp [dictFind?, List.filter_cons, List.find?_cons, h1, h2, hk]
      · simp only [dictFind?, List.filter_cons, List.find?_cons, h1, h2] at ih ⊢
        simp_all [dictFind?]

/-- Filtering out a key makes its own lookup miss. -/
theorem dictFind?_filter_self (cfg : PyDict) (x : String) :
    dictFind? (cfg.filter (fun kv => kv.1 ≠ x)) x = none := by
  induction cfg with
  | nil => rfl
  | cons kv rest ih =>
    by_cases h1 : kv.1 = x
    · simp only [dictFind?, List.filter_cons, List.find?_cons, h1] at ih ⊢
      simp_all [dictFind?]
    · simp only [dictFind?, List.filter_cons, List.find?_cons, h1] at ih ⊢
      simp_all [dictFind?]

/-- A non-dict `extra_rules` entry contributes nothing to the merged rules:
dropping the entry gives the same merged dictionary. -/
theorem mergedRules_malformed (cfg : PyDict)
    (hnd : ∀ d, dictGet cfg "extra_rules" ≠ .dict d) :
    mergedRules cfg =
      mergedRules (cfg.filter (fun kv => kv.1 ≠ "extra_rules")) := by
  unfold mergedRules
  have h1 : dictGet (cfg.filter (fun kv => kv.1 ≠ "extra_rules"))
      "extra_rules" = .pynone := by
    unfold dictGet dictGetD
    rw [dictFind?_filter_self]
    rfl
  have h2 : dictGet (cfg.filter (fun kv => kv.1 ≠ "extra_rules"))
      "validation" = dictGet cfg "validation" := by
    unfold dictGet dictGetD
    rw [dictFind?_filter_ne cfg "validation" "extra_rules" (by decide)]
  rw [h1, h2]
  cases htop : dictGet cfg "extra_rules" with
  | dict d => exact absurd htop (hnd d)
  | str s => rfl
  | int n => rfl
  | bool b => rfl
  | listStr l => rfl
  | pynone => rfl

/-- Counterexample to C10 as stated: a malformed (non-dict) rules object
does not make `validate_field` return `None`; validation still runs with
empty rules and can reject the value. -/
theorem malformed_rules_not_none :
    validate_field (.str "abc")
      [("name", .str "n"), ("type", .str "number"),
       ("extra_rules", .str "bogus")] =
      .ok (some "Must be a valid number") := rfl

/-- C10 (amended): `validate_field` returns `none` or an error string for
every configuration whose `type` entry is hashable, but the dispatch
`validators.get(field_type)` runs outside the catch-all, so an unhashable
(list or dict) `type` with a non-blank value propagates a `TypeError` —
characterized exactly by the first conjunct. An unrecognised hashable
field type short-circuits to `none` for any non-blank value; an exception
inside a type validator is caught and converted to the fixed
internal-error message; and a missing or malformed (non-dict) rules
object is ignored — validation proceeds exactly as if the entry were
absent (but the result need not be `none`). -/
theorem validate_field_total_and_defensive :
    (∀ (value : PyV) (cfg : PyDict),
       validate_field value cfg = .error () ↔
         (value.truthy = true ∧ strTrim value.pyStr ≠ "" ∧
          ((∃ l, dictGet cfg "type" = .listStr l) ∨
           (∃ d, dictGet cfg "type" = .dict d)))) ∧
    (∀ (value : PyV) (cfg : PyDict),
       validate_field value cfg = .ok none ∨
       (∃ s, validate_field value cfg = .ok (some s)) ∨
       validate_field value cfg = .error ()) ∧
    (∀ (value : PyV) (cfg : PyDict),
       validatorName (dictGet cfg "type") = .ok none →
       value.truthy = true → strTrim value.pyStr ≠ "" →
       validate_field value cfg = .ok none) ∧
    (∀ (value : PyV) (cfg : PyDict) (vname : String),
       validatorName (dictGet cfg "type") = .ok (some vname) →
       value.truthy = true → strTrim value.pyStr ≠ "" →
       runValidator vname (strTrim value.pyStr) (mergedRules cfg) = .error () →
       validate_field value cfg =
         .ok (some "Validation failed due to internal error")) ∧
    (∀ (value : PyV) (cfg : PyDict),
       (∀ d, dictGet cfg "extra_rules" ≠ .dict d) →
       validate_field value cfg =
         validate_field value
           (cfg.filter (fun kv => kv.1 ≠ "extra_rules"))) := by
  refine ⟨?_, ?_, ?_, ?_, ?_⟩
  · intro value cfg
    unfold validate_field
    by_cases hb : (!value.truthy || strTrim value.pyStr = "") = true
    · constructor
      · intro h
        by_cases hr : ((dictGet cfg "required").truthy &&
            (!value.truthy || strTrim value.pyStr = "")) = true
        · rw [if_pos hr] at h
          exact absurd h (by simp)
        · rw [if_neg hr, if_pos hb] at h
          exact absurd h (by simp)
      · rintro ⟨ht, htr, -⟩
        exfalso
        have hb2 : value.truthy = false ∨ strTrim value.pyStr = "" := by
          simpa using hb
        rcases hb2 with h1 | h1
        · rw [ht] at h1
          simp at h1
        · exact htr h1
    · have hb' : (!value.truthy || strTrim value.pyStr = "") = false :=
        Bool.eq_false_iff.mpr hb
      have ht : value.truthy = true := by
        rcases Bool.or_eq_false_iff.mp hb' with ⟨h1, -⟩
        simpa using h1
      have htr : strTrim value.pyStr ≠ "" := by
        rcases Bool.or_eq_false_iff.mp hb' with ⟨-, h2⟩
        simpa using h2
      rw [if_neg (by rw [hb']; simp), if_neg (by rw [hb']; simp)]
      constructor
      · intro h
        refine ⟨ht, htr, ?_⟩
        cases hvn : validatorName (dictGet cfg "type") with
        | error u =>
          cases hft : dictGet cfg "type" with
          | listStr l => exact Or.inl ⟨l, rfl⟩
          | dict d => exact Or.inr ⟨d, rfl⟩
          | str s =>
            rw [hft] at hvn
            simp [validatorName] at hvn
          | int n =>
            rw [hft] at hvn
            simp [validatorName] at hvn
          | bool b =>
            rw [hft] at hvn
            simp [validatorName] at hvn
          | pynone =>
            rw [hft] at hvn
            simp [validatorName] at hvn
        | ok r =>
          exfalso
          rw [hvn] at h
          cases r with
          | none => simp at h
          | some vname =>
            simp only [] at h
            cases hrun : runValidator vname (strTrim value.pyStr)
              (mergedRules cfg) with
            | error u =>
              rw [hrun] at h
              simp at h
            | ok rr =>
              rw [hrun] at h
              simp at h
      · rintro ⟨-, -, hshape⟩
        rcases hshape with ⟨l, hft⟩ | ⟨d, hft⟩
        · rw [hft]
          simp [validatorName]
        · rw [hft]
          simp [validatorName]
  · intro value cfg
    cases h : validate_field value cfg with
    | error u =>
      right
      right
      cases u
      rfl
    | ok r =>
      cases r with
      | none => exact Or.inl rfl
      | some s => exact Or.inr (Or.inl ⟨s, rfl⟩)
  · intro value cfg hname hv ht
    unfold validate_field
    simp [hv, ht, hname]
  · intro value cfg vname hname hv ht hrun
    unfold validate_field
    simp [hv, ht, hname, hrun]
  · intro value cfg hnd
    unfold validate_field
    rw [dictFind?_filter_ne cfg "name" "extra_rules" (by decide),
      show dictGet (cfg.filter (fun kv => kv.1 ≠ "extra_rules")) "type" =
        dictGet cfg "type" by
          unfold dictGet dictGetD
          rw [dictFind?_filter_ne cfg "type" "extra_rules" (by decide)],
      show dictGet (cfg.filter (fun kv => kv.1 ≠ "extra_rules")) "required" =
        dictGet cfg "required" by
          unfold dictGet dictGetD
          rw [dictFind?_filter_ne cfg "required" "extra_rules" (by decide)],
      ← mergedRules_malformed cfg hnd]

/-- Fixture for C10: a string field with a malformed (string-typed)
`max_length` rule, which makes the Python comparison raise. -/
def cfgBadRules : PyDict :=
  [("name", PyV.str "n"), ("type", PyV.str "string"),
   ("extra_rules", PyV.dict [("max_length", PyV.str "10")])]

/-- Witness for C10: the internal-error conversion fires on a raising
validator, an unrecognised hashable type yields `none`, and an unhashable
(list-valued) type with a non-blank value propagates the dispatch
exception. -/
theorem validate_field_total_and_defensive_witness :
    validate_field (PyV.str "x") cfgBadRules =
      .ok (some "Validation failed due to internal error") ∧
    validate_field (PyV.str "abc")
      [("name", PyV.str "n"), ("type", PyV.str "weird")] = .ok none ∧
    validate_field (PyV.str "x") [("type", PyV.listStr [])] = .error () :=
  ⟨validate_field_total_and_defensive.2.2.2.1 (PyV.str "x") cfgBadRules
     "string" rfl rfl (by decide) rfl,
   validate_field_total_and_defensive.2.2.1 (PyV.str "abc")
     [("name", PyV.str "n"), ("type", PyV.str "weird")] rfl rfl (by decide),
   (validate_field_total_and_defensive.1 (PyV.str "x")
     [("type", PyV.listStr [])]).mpr
     ⟨rfl, by decide, Or.inl ⟨[], rfl⟩⟩⟩

/-! ### C8: webhook valid/error row separation -/

/-- Membership in the indexed dataframe rows. -/
theorem mem_dfIdx (df : List DictRow) (i : Nat) (x : DictRow) :
    ((i, x) ∈ (List.range df.length).map (fun j => (j, df.getD j []))) ↔
      (i < df.length ∧ x = df.getD i []) := by
  constructor
  · intro h
    simp only [List.mem_map, List.mem_range] at h
    obtain ⟨j, hj, heq⟩ := h
    obtain ⟨h1, h2⟩ := Prod.mk.injEq _ _ _ _ |>.mp heq
    subst h1
    exact ⟨hj, h2.symm⟩
  · rintro ⟨hi, rfl⟩
    simp only [List.mem_map, List.mem_range]
    exact ⟨i, hi, rfl⟩

/-- The 0-based error indices contain `i` exactly when some conflict
carries the 1-based row `i + 1`. -/
theorem mem_rowIndices (errors : List Conflict) (i : Nat) :
    ((i : Int) ∈ errors.filterMap
      (fun e => match e.row with
                | .num n => some (n - 1)
                | .header => none)) ↔
      ∃ e ∈ errors, e.row = .num ((i : Int) + 1) := by
  simp only [List.mem_filterMap]
  constructor
  · rintro ⟨e, he, hf⟩
    refine ⟨e, he, ?_⟩
    cases hr : e.row with
    | header => rw [hr] at hf; simp at hf
    | num n =>
      rw [hr] at hf
      simp only [Option.some.injEq] at hf
      congr 1
      omega
  · rintro ⟨e, he, hr⟩
    refine ⟨e, he, ?_⟩
    rw [hr]
    simp only [Option.some.injEq]
    omega

/-- Without a structural conflict, the worker's scan never breaks: it
collects exactly the 0-based rows of all conflicts and reports no
structural flag. -/
theorem errorRowIndices_no_header (errors : List Conflict)
    (h : errors.any (fun e => e.row == .header) = false) :
    errorRowIndicesWorker errors =
      (errors.filterMap
        (fun e => match e.row with
                  | .num n => some (n - 1)
                  | .header => none), false) := by
  induction errors with
  | nil => rfl
  | cons e rest ih =>
    simp only [List.any_cons, Bool.or_eq_false_iff] at h
    cases hr : e.row with
    | header =>
      rw [hr] at h
      simp at h
    | num n =>
      have := ih h.2
      simp only [errorRowIndicesWorker, hr, List.filterMap_cons, this]

/-- C8 (amended): on the worker's webhook path, when no conflict is
structural a row is in the invalid set exactly when its 1-based index
appears in some conflict (and in the valid set otherwise), and any
structural `Header` conflict empties the valid set; the legacy resend
builder, however, ignores the structural marker — its valid set always
excludes exactly the rows of integer-row conflicts. -/
theorem webhook_row_separation :
    (∀ (df : List DictRow) (errors : List Conflict) (i : Nat),
       errors.any (fun e => e.row == .header) = false → i < df.length →
       (((i, df.getD i []) ∈ (webhookSeparation df errors).2) ↔
         ∃ e ∈ errors, e.row = .num ((i : Int) + 1)) ∧
       (((i, df.getD i []) ∈ (webhookSeparation df errors).1) ↔
         ¬ ∃ e ∈ errors, e.row = .num ((i : Int) + 1))) ∧
    (∀ (df : List DictRow) (errors : List Conflict),
       errors.any (fun e => e.row == .header) = true →
       (webhookSeparation df errors).1 = []) ∧
    (∀ (df : List DictRow) (errors : List Conflict) (i : Nat), i < df.length →
       (((i, df.getD i []) ∈ (legacyWebhookSeparation df errors).1) ↔
         ¬ ∃ e ∈ errors, e.row = .num ((i : Int) + 1))) := by
  refine ⟨?_, ?_, ?_⟩
  · intro df errors i hstruct hi
    unfold webhookSeparation
    rw [errorRowIndices_no_header errors hstruct]
    simp only [hstruct, Bool.false_eq_true, if_false]
    by_cases hidx : (errors.filterMap
        (fun e => match e.row with
                  | .num n => some (n - 1)
                  | .header => none)).isEmpty
    · rw [List.isEmpty_iff] at hidx
      constructor
      · constructor
        · intro hmem
          simp [hidx] at hmem
        · rintro ⟨e, he, hr⟩
          exfalso
          have : (i : Int) ∈ errors.filterMap
              (fun e => match e.row with
                        | .num n => some (n - 1)
                        | .header => none) :=
            (mem_rowIndices errors i).mpr ⟨e, he, hr⟩
          rw [hidx] at this
          simp at this
      · simp only [hidx]
        simp only [List.isEmpty_nil, if_true]
        constructor
        · intro _
          intro hex
          have := (mem_rowIndices errors i).mpr hex
          rw [hidx] at this
          simp at this
        · intro _
          exact (mem_dfIdx df i _).mpr ⟨hi, rfl⟩
    · have hne : ((errors.filterMap
        (fun e => match e.row with
                  | .num n => some (n - 1)
                  | .header => none)).isEmpty = false) := by
        simp only [Bool.not_eq_true] at hidx
        exact hidx
      simp only [hne, Bool.not_false, if_true]
      constructor
      · rw [List.mem_filter]
        rw [mem_dfIdx df i _]
        constructor
        · rintro ⟨⟨-, -⟩, hmem⟩
          rw [decide_eq_true_eq] at hmem
          exact (mem_rowIndices errors i).mp hmem
        · intro hex
          exact ⟨⟨hi, rfl⟩, by
            rw [decide_eq_true_eq]
            exact (mem_rowIndices errors i).mpr hex⟩
      · rw [List.mem_filter]
        rw [mem_dfIdx df i _]
        constructor
        · rintro ⟨-, hmem⟩
          rw [decide_eq_true_eq] at hmem
          intro hex
          exact hmem ((mem_rowIndices errors i).mpr hex)
        · intro hex
          exact ⟨⟨hi, rfl⟩, by
            rw [decide_eq_true_eq]
            exact fun hmem => hex ((mem_rowIndices errors i).mp hmem)⟩
  · intro df errors hstruct
    unfold webhookSeparation
    simp [hstruct]
  · intro df errors i hi
    unfold legacyWebhookSeparation
    by_cases hidx : (errors.filterMap
        (fun e => match e.row with
                  | .num n => some (n - 1)
                  | .header => none)).isEmpty
    · rw [List.isEmpty_iff] at hidx
      simp only [hidx, List.isEmpty_nil, Bool.not_true, Bool.false_and,
        Bool.false_eq_true, if_false]
      constructor
      · intro _
        rintro hex
        have := (mem_rowIndices errors i).mpr hex
        rw [hidx] at this
        simp at this
      · intro _
        exact (mem_dfIdx df i _).mpr ⟨hi, rfl⟩
    · have hdf : df.isEmpty = false := by
        cases df with
        | nil => simp at hi
        | cons a l => rfl
      have hne : ((errors.filterMap
        (fun e => match e.row with
                  | .num n => some (n - 1)
                  | .header => none)).isEmpty = false) := by
        simp only [Bool.not_eq_true] at hidx
        exact hidx
      simp only [hne, hdf, Bool.not_false, Bool.and_self, if_true]
      rw [List.mem_filter]
      rw [mem_dfIdx df i _]
      constructor
      · rintro ⟨-, hmem⟩
        rw [decide_eq_true_eq] at hmem
        intro hex
        exact hmem ((mem_rowIndices errors i).mpr hex)
      · intro hex
        exact ⟨⟨hi, rfl⟩, by
          rw [decide_eq_true_eq]
          exact fun hmem => hex ((mem_rowIndices errors i).mp hmem)⟩

/-- Concrete dataframe for the C8 counterexample. -/
def dfC8 : List DictRow := [[("c", "1")], [("c", "2")]]

/-- A single structural conflict. -/
def errsC8 : List Conflict :=
  [⟨.header, none, some "email", "", "Required field missing"⟩]

/-- Counterexample to C8 as stated: with a structural `Header` conflict
present, the legacy webhook builder still emits the whole dataset as
valid — its valid set is nonempty, contradicting "the payload's valid data
set is empty" for every job and every outcome. -/
theorem legacy_webhook_ignores_structural :
    errsC8.any (fun e => e.row == .header) = true ∧
    (legacyWebhookSeparation dfC8 errsC8).1 =
      [(0, [("c", "1")]), (1, [("c", "2")])] ∧
    (webhookSeparation dfC8 errsC8).1 = [] := by
  refine ⟨by decide, by decide, by decide⟩

/-- Witness for C8 on the worker path with one non-structural conflict. -/
theorem webhook_row_separation_witness :
    (((1 : Nat), ([("c", "2")] : DictRow)) ∈
      (webhookSeparation dfC8
        [⟨.num 2, some "c", none, "2", "bad"⟩]).2) ↔
      ∃ e ∈ ([⟨.num 2, some "c", none, "2", "bad"⟩] : List Conflict),
        e.row = .num ((1 : Int) + 1) :=
  (webhook_row_separation.1 dfC8 [⟨.num 2, some "c", none, "2", "bad"⟩] 1
    (by decide) (by decide)).1

/-! ### C7: schema resolver acceptance -/

/-- Every fuzzy match pairs a pending importer field with an available CSV
header. -/
theorem fuzzyMatch_mem (fs avail : List String) :
    ∀ p ∈ fuzzyMatch fs avail, p.1 ∈ fs ∧ p.2 ∈ avail := by
  induction fs generalizing avail with
  | nil => simp [fuzzyMatch]
  | cons f fs ih =>
    intro p hp
    unfold fuzzyMatch at hp
    cases hfind : avail.find? (fun c => normalizeHeader c = normalizeHeader f) with
    | none =>
      rw [hfind] at hp
      have := ih avail p hp
      exact ⟨List.mem_cons_of_mem _ this.1, this.2⟩
    | some c =>
      rw [hfind] at hp
      rcases List.mem_cons.mp hp with h | h
      · subst h
        exact ⟨List.mem_cons_self _ _, List.mem_of_find?_eq_some hfind⟩
      · have := ih (avail.erase c) p h
        exact ⟨List.mem_cons_of_mem _ this.1, List.mem_of_mem_erase this.2⟩

/-- Fuzzy matching consumes each CSV header at most once. -/
theorem fuzzyMatch_snd_nodup (fs avail : List String) (h : avail.Nodup) :
    ((fuzzyMatch fs avail).map (fun p => p.2)).Nodup := by
  induction fs generalizing avail with
  | nil => simp [fuzzyMatch]
  | cons f fs ih =>
    unfold fuzzyMatch
    cases hfind : avail.find? (fun c => normalizeHeader c = normalizeHeader f) with
    | none => exact ih avail h
    | some c =>
      simp only [List.map_cons]
      refine List.nodup_cons.mpr ⟨?_, ih (avail.erase c) (h.erase c)⟩
      intro hc
      obtain ⟨p, hp, hpc⟩ := List.mem_map.mp hc
      have hmem := (fuzzyMatch_mem fs (avail.erase c) p hp).2
      rw [hpc] at hmem
      exact h.not_mem_erase hmem

/-- Every smart-mapping pair maps a (deduplicated) importer field name to a
CSV header. -/
theorem smartMapping_mem (names csv : List String) :
    ∀ p ∈ smartMapping names csv, p.1 ∈ names.dedup ∧ p.2 ∈ csv := by
  intro p hp
  unfold smartMapping at hp
  rcases List.mem_append.mp hp with h | h
  · obtain ⟨f, hf, rfl⟩ := List.mem_map.mp h
    have hf2 := List.mem_filter.mp hf
    refine ⟨hf2.1, ?_⟩
    have : f ∈ csv.dedup := by
      have := hf2.2
      rwa [decide_eq_true_eq] at this
    exact List.mem_dedup.mp this
  · have h1 := fuzzyMatch_mem _ _ p h
    constructor
    · exact (List.mem_filter.mp h1.1).1
    · exact List.mem_dedup.mp (List.mem_filter.mp h1.2).1

/-- Distinct smart-mapping pairs use distinct CSV columns. -/
theorem smartMapping_snd_nodup (names csv : List String) :
    ((smartMapping names csv).map (fun p => p.2)).Nodup := by
  unfold smartMapping
  rw [List.map_append]
  refine List.Nodup.append ?_ ?_ ?_
  · rw [List.map_map]
    have hid : ((fun p : String × String => p.2) ∘ (fun f : String => (f, f))) =
        fun f => f := rfl
    rw [hid, List.map_id']
    exact List.Nodup.filter _ names.nodup_dedup
  · exact fuzzyMatch_snd_nodup _ _ (List.Nodup.filter _ csv.nodup_dedup)
  · intro a ha hb
    obtain ⟨p, hp, hpa⟩ := List.mem_map.mp ha
    obtain ⟨f, hf, hfp⟩ := List.mem_map.mp hp
    obtain ⟨q, hq, hqa⟩ := List.mem_map.mp hb
    have h2 := (fuzzyMatch_mem _ _ q hq).2
    have h3 := (List.mem_filter.mp h2).2
    rw [decide_eq_true_eq] at h3
    apply h3
    rw [hqa, ← hpa, ← hfp]
    exact hf

/-- Looking up a key other than the filtered-out one is unchanged. -/
theorem lookupStr_filter_ne (l : List (String × String)) (k x : String)
    (hk : k ≠ x) :
    lookupStr (l.filter (fun kv => kv.1 ≠ x)) k = lookupStr l k := by
  induction l with
  | nil => rfl
  | cons kv rest ih =>
    by_cases h1 : kv.1 = x
    · have hne : kv.1 ≠ k := by
        rw [h1]
        exact fun h => hk h.symm
      simp only [lookupStr, List.filter_cons, List.find?_cons, h1, hne] at ih ⊢
      simp_all [lookupStr]
    · by_cases h2 : kv.1 = k
      · simp [lookupStr, List.filter_cons, List.find?_cons, h1, h2, hk]
      · simp only [lookupStr, List.filter_cons, List.find?_cons, h1, h2] at ih ⊢
        simp_all [lookupStr]

/-- One inversion step resolves its own column. -/
theorem invert_step_self (acc : List (String × String)) (c f : String) :
    lookupStr (acc.filter (fun kv => kv.1 ≠ c) ++ [(c, f)]) c = some f := by
  unfold lookupStr
  rw [List.find?_append]
  have h1 : (acc.filter (fun kv => kv.1 ≠ c)).find?
      (fun kv => kv.1 = c) = none := by
    rw [List.find?_eq_none]
    intro a ha
    have := (List.mem_filter.mp ha).2
    simp only [decide_not, Bool.not_eq_true', decide_eq_false_iff_not] at this
    simp [this]
  rw [h1]
  simp

/-- One inversion step leaves other columns' lookups unchanged. -/
theorem invert_step_other (acc : List (String × String)) (c0 f0 c : String)
    (h : c ≠ c0) :
    lookupStr (acc.filter (fun kv => kv.1 ≠ c0) ++ [(c0, f0)]) c =
      lookupStr acc c := by
  unfold lookupStr
  rw [List.find?_append]
  have h2 : ([(c0, f0)].find? (fun kv => kv.1 = c)) = none := by
    rw [List.find?_eq_none]
    intro a ha
    simp only [List.mem_singleton] at ha
    subst ha
    simp [Ne.symm h]
  rw [h2]
  have h3 := lookupStr_filter_ne acc c c0 h
  unfold lookupStr at h3
  rw [Option.or_none]
  exact h3

/-- Folding inversion steps over pairs whose columns avoid `c` does not
change the lookup of `c`. -/
theorem invert_fold_not_mem (m : List (String × String))
    (acc : List (String × String)) (c : String)
    (hc : c ∉ m.map (fun p => p.2)) :
    lookupStr (m.foldl (fun acc fc =>
      acc.filter (fun kv => kv.1 ≠ fc.2) ++ [(fc.2, fc.1)]) acc) c =
      lookupStr acc c := by
  induction m generalizing acc with
  | nil => rfl
  | cons p rest ih =>
    simp only [List.map_cons, List.mem_cons, not_or] at hc
    simp only [List.foldl_cons]
    rw [ih _ hc.2, invert_step_other acc p.2 p.1 c hc.1]

/-- Folding inversion steps resolves each column of a column-distinct
mapping list to its field, whatever the accumulator. -/
theorem invert_fold_mem (m : List (String × String)) :
    ∀ (acc : List (String × String)) (f c : String),
      (m.map (fun p => p.2)).Nodup → (f, c) ∈ m →
      lookupStr (m.foldl (fun acc fc =>
        acc.filter (fun kv => kv.1 ≠ fc.2) ++ [(fc.2, fc.1)]) acc) c =
        some f := by
  induction m with
  | nil =>
    intro acc f c _ hm
    simp at hm
  | cons p rest ih =>
    intro acc f c hnd hm
    simp only [List.map_cons, List.nodup_cons] at hnd
    simp only [List.foldl_cons]
    rcases List.mem_cons.mp hm with h | h
    · have hf : f = p.1 := congrArg Prod.fst h
    
      have hcc : c = p.2 := congrArg Prod.snd h
      subst hf
      subst hcc
      rw [invert_fold_not_mem rest _ p.2 hnd.1]
      exact invert_step_self acc p.2 p.1
    · exact ih _ f c hnd.2 h

/-- The inverted mapping resolves each column of a column-distinct mapping
to its field. -/
theorem invertMapping_lookup (m : List (String × String))
    (hnd : (m.map (fun p => p.2)).Nodup) (f c : String)
    (hm : (f, c) ∈ m) :
    lookupStr (invertMapping m) c = some f :=
  invert_fold_mem m [] f c hnd hm

/-- Every matched field name appears among the renamed headers. -/
theorem matched_mem_renamedHeaders (fields : List ResolverField)
    (csvHeaders : List String) (r : String)
    (hne : smartMapping (fields.map (fun f => f.name)) csvHeaders ≠ [])
    (hr : r ∈ (smartMapping (fields.map (fun f => f.name)) csvHeaders).map
      (fun fc => fc.1)) :
    r ∈ renamedHeaders
      (some (smartMapping (fields.map (fun f => f.name)) csvHeaders))
      csvHeaders := by
  obtain ⟨p, hp, hpr⟩ := List.mem_map.mp hr
  have hmem := smartMapping_mem _ _ p hp
  unfold renamedHeaders
  have ht : mappingTruthy
      (some (smartMapping (fields.map (fun f => f.name)) csvHeaders)) = true := by
    unfold mappingTruthy
    simp [hne]
  simp only [ht, if_true]
  refine List.mem_map.mpr ⟨p.2, hmem.2, ?_⟩
  have hlk : lookupStr
      (invertMapping (smartMapping (fields.map (fun f => f.name)) csvHeaders))
      p.2 = some p.1 := by
    refine invertMapping_lookup _ (smartMapping_snd_nodup _ _) p.1 p.2 ?_
    rw [Prod.mk.eta]
    exact hp
  simp only [Option.getD_some]
  rw [hlk]
  simp [hpr]

/-- C7 (amended): with no explicit mapping, the full processing pass
proceeds whenever every required field is matched by the smart matching
(exactly or fuzzily) and at least one field matched — there is no
half-of-all-fields threshold on this path; and when some required field is
unmatched the job fails with exactly one structural Header conflict per
required field not literally present among the CSV headers (and no summary
mapping error in that case). -/
theorem resolver_acceptance :
    (∀ (fields : List ResolverField) (csvHeaders : List String),
       ((requiredNamesOf fields).filter (fun r =>
         r ∉ (smartMapping (fields.map (fun f => f.name)) csvHeaders).map
           (fun fc => fc.1))) = [] →
       smartMapping (fields.map (fun f => f.name)) csvHeaders ≠ [] →
       ∃ mapping headers,
         resolveAndCheckHeaders fields csvHeaders none =
           .proceed mapping headers) ∧
    (∀ (fields : List ResolverField) (csvHeaders : List String) (r : String),
       r ∈ requiredNamesOf fields →
       r ∉ (smartMapping (fields.map (fun f => f.name)) csvHeaders).map
         (fun fc => fc.1) →
       resolveAndCheckHeaders fields csvHeaders none =
         .failed ("Required fields are missing: " ++ String.intercalate ", "
             ((requiredNamesOf fields).filter (fun x => x ∉ csvHeaders)))
           (((requiredNamesOf fields).filter (fun x => x ∉ csvHeaders)).map
             workerHeaderConflict)
           ((requiredNamesOf fields).filter (fun x => x ∉ csvHeaders)).length) := by
  constructor
  · intro fields csvHeaders hreq hne
    have hauto : autoMapping fields csvHeaders =
        some (smartMapping (fields.map (fun f => f.name)) csvHeaders) := by
      unfold autoMapping
      have h1 : (((requiredNamesOf fields).filter (fun r =>
          r ∉ (smartMapping (fields.map (fun f => f.name)) csvHeaders).map
            (fun fc => fc.1)))).isEmpty = true := by
        rw [hreq]
        rfl
      have h2 : ((smartMapping (fields.map (fun f => f.name)) csvHeaders).map
          (fun fc => fc.1)).isEmpty = false := by
        rw [List.isEmpty_eq_false]
        simp [hne]
      rw [if_pos (by rw [h1, h2]; rfl)]
    have hmrf : (requiredNamesOf fields).filter (fun r =>
        r ∉ renamedHeaders
          (some (smartMapping (fields.map (fun f => f.name)) csvHeaders))
          csvHeaders) = [] := by
      rw [List.filter_eq_nil_iff]
      intro r hr
      have hmatch : r ∈ (smartMapping (fields.map (fun f => f.name))
          csvHeaders).map (fun fc => fc.1) := by
        by_contra hno
        have := List.filter_eq_nil_iff.mp hreq r hr
        simp [hno] at this
      have := matched_mem_renamedHeaders fields csvHeaders r hne hmatch
      simp [this]
    have hov : ((fieldNamesOf fields).filter (fun n =>
        n ∈ renamedHeaders
          (some (smartMapping (fields.map (fun f => f.name)) csvHeaders))
          csvHeaders)) ≠ [] := by
      cases hsm : smartMapping (fields.map (fun f => f.name)) csvHeaders with
      | nil => exact absurd hsm hne
      | cons q rest =>
        apply List.ne_nil_of_mem
          (a := q.1)
        apply List.mem_filter.mpr
        constructor
        · have := (smartMapping_mem _ _ q (by rw [hsm]; exact List.mem_cons_self _ _)).1
          exact this
        · have : q.1 ∈ (smartMapping (fields.map (fun f => f.name))
              csvHeaders).map (fun fc => fc.1) := by
            rw [hsm]
            exact List.mem_map.mpr ⟨q, List.mem_cons_self _ _, rfl⟩
          have hm := matched_mem_renamedHeaders fields csvHeaders q.1 hne this
          simpa [hsm] using hm
    refine ⟨some (smartMapping (fields.map (fun f => f.name)) csvHeaders),
      renamedHeaders
        (some (smartMapping (fields.map (fun f => f.name)) csvHeaders))
        csvHeaders, ?_⟩
    have hov2 : ((fieldNamesOf fields).filter (fun n =>
        n ∈ renamedHeaders
          (some (smartMapping (fields.map (fun f => f.name)) csvHeaders))
          csvHeaders)).isEmpty = false := by
      rw [List.isEmpty_eq_false]
      exact hov
    unfold resolveAndCheckHeaders
    simp only [hauto]
    rw [if_neg (by rw [hmrf]; decide)]
    rw [if_neg (by rw [hov2]; decide)]
    rw [if_neg (by simp)]
  · intro fields csvHeaders r hrin hrnot
    have hauto : autoMapping fields csvHeaders = none := by
      unfold autoMapping
      have hr2 : r ∈ (requiredNamesOf fields).filter (fun x =>
          x ∉ (smartMapping (fields.map (fun f => f.name)) csvHeaders).map
            (fun fc => fc.1)) :=
        List.mem_filter.mpr ⟨hrin, by simpa using hrnot⟩
      have h1 : ((requiredNamesOf fields).filter (fun x =>
          x ∉ (smartMapping (fields.map (fun f => f.name)) csvHeaders).map
            (fun fc => fc.1))).isEmpty = false := by
        rw [List.isEmpty_eq_false]
        exact List.ne_nil_of_mem hr2
      rw [if_neg (by rw [h1]; simp)]
    have hrncsv : r ∉ csvHeaders := by
      intro hin
      apply hrnot
      have h1 : r ∈ (fields.map (fun f => f.name)).dedup := by
        rw [List.mem_dedup]
        have := List.mem_dedup.mp hrin
        obtain ⟨f, hf, hrf⟩ := List.mem_map.mp this
        exact List.mem_map.mpr ⟨f, (List.mem_filter.mp hf).1, hrf⟩
      have h2 : r ∈ (fields.map (fun f => f.name)).dedup.filter
          (fun f => f ∈ csvHeaders.dedup) :=
        List.mem_filter.mpr ⟨h1, by simp [List.mem_dedup, hin]⟩
      refine List.mem_map.mpr ⟨(r, r), ?_, rfl⟩
      unfold smartMapping
      exact List.mem_append.mpr (Or.inl (List.mem_map.mpr ⟨r, h2, rfl⟩))
    have hcur : renamedHeaders none csvHeaders = csvHeaders := rfl
    have hmrf : r ∈ (requiredNamesOf fields).filter
        (fun x => x ∉ csvHeaders) :=
      List.mem_filter.mpr ⟨hrin, by simpa using hrncsv⟩
    have hne2 : ((requiredNamesOf fields).filter
        (fun x => x ∉ csvHeaders)).isEmpty = false := by
      rw [List.isEmpty_eq_false]
      exact List.ne_nil_of_mem hmrf
    have hne3 : ((requiredNamesOf fields).filter
        (fun x => x ∉ renamedHeaders none csvHeaders)).isEmpty = false := hne2
    unfold resolveAndCheckHeaders
    simp only [hauto]
    rw [if_pos (by rw [hne3]; rfl)]
    rfl

/-- Importer fields for the C7 counterexample: four optional fields. -/
def fieldsC7 : List ResolverField :=
  [⟨"a", false⟩, ⟨"b", false⟩, ⟨"c", false⟩, ⟨"d", false⟩]

/-- Counterexample to C7 as stated: with no explicit mapping, only one of
four importer fields matches the CSV headers (fewer than half), all
required fields (there are none) are matched, and the full processing pass
proceeds instead of failing — the claimed half-of-all-fields threshold
does not exist on this path. -/
theorem resolver_no_half_threshold :
    (smartMapping (fieldsC7.map (fun f => f.name))
      ["a", "x", "y", "z"]).length = 1 ∧
    (fieldNamesOf fieldsC7).length = 4 ∧
    resolveAndCheckHeaders fieldsC7 ["a", "x", "y", "z"] none =
      .proceed (some [("a", "a")]) ["a", "x", "y", "z"] := by
  refine ⟨by decide, by decide, by decide⟩

/-- Witness for C7 at the concrete one-of-four-matches input. -/
theorem resolver_acceptance_witness :
    ∃ mapping headers,
      resolveAndCheckHeaders fieldsC7 ["a", "x", "y", "z"] none =
        .proceed mapping headers :=
  resolver_acceptance.1 fieldsC7 ["a", "x", "y", "z"] (by decide) (by decide)

/-! ### Conflict-key uniqueness (support lemmas) -/

/-- Pairwise property of a flatMap over an index range: each block is
internally pairwise and cross-block pairs are related. -/
theorem pairwise_range_flatMap {α : Type} (R : α → α → Prop) (n : Nat)
    (g : Nat → List α) (hg : ∀ i, (g i).Pairwise R)
    (hcross : ∀ i j, i < j → j < n → ∀ x ∈ g i, ∀ y ∈ g j, R x y) :
    ((List.range n).flatMap g).Pairwise R := by
  induction n with
  | zero => simp
  | succ m ih =>
    rw [List.range_succ, List.flatMap_append, List.pairwise_append]
    refine ⟨ih (fun i j hij hj => hcross i j hij (Nat.lt_succ_of_lt hj)),
      by simpa using hg m, ?_⟩
    intro a ha b hb
    rw [List.mem_flatMap] at ha
    obtain ⟨i, hi, hai⟩ := ha
    rw [List.mem_range] at hi
    have hb' : b ∈ g m := by simpa using hb
    exact hcross i m hi (Nat.lt_succ_self m) a hai b hb'

/-- Pairwise property of a filterMap over an index range: values produced at
distinct indices are related. -/
theorem pairwise_range_filterMap {α : Type} (R : α → α → Prop) (n : Nat)
    (h : Nat → Option α)
    (hk : ∀ i j, i < j → j < n → ∀ x, h i = some x → ∀ y, h j = some y →
      R x y) :
    ((List.range n).filterMap h).Pairwise R := by
  induction n with
  | zero => simp
  | succ m ih =>
    rw [List.range_succ, List.filterMap_append, List.pairwise_append]
    refine ⟨ih (fun i j hij hj => hk i j hij (Nat.lt_succ_of_lt hj)), ?_, ?_⟩
    · cases hm : h m <;> simp [List.filterMap_cons, hm]
    · intro a ha b hb
      rw [List.mem_filterMap] at ha hb
      obtain ⟨i, hi, hai⟩ := ha
      obtain ⟨j, hj, hbj⟩ := hb
      rw [List.mem_range] at hi
      have hj' : j = m := by simpa using hj
      rw [hj'] at hbj
      exact hk i m hi (Nat.lt_succ_self m) a hai b hbj

/-- Every entry of `csvColumnToField M` is an inverted entry of `M`. -/
theorem mem_csvColumnToField_aux (M : List (String × String)) :
    ∀ (acc : List (String × String)) (p : String × String),
      p ∈ M.foldl
        (fun acc fc =>
          if fc.2 ≠ "" && !strIsPrefixOf "_" fc.1 then
            acc.filter (fun kv => kv.1 ≠ fc.2) ++ [(fc.2, fc.1)]
          else acc)
        acc →
      p ∈ acc ∨ (p.2, p.1) ∈ M := by
  induction M with
  | nil =>
    intro acc p hp
    exact Or.inl (by simpa using hp)
  | cons fc M' ih =>
    intro acc p hp
    rw [List.foldl_cons] at hp
    rcases ih _ p hp with h | h
    · by_cases hc : (fc.2 ≠ "" && !strIsPrefixOf "_" fc.1) = true
      · rw [if_pos hc] at h
        rcases List.mem_append.mp h with h1 | h1
        · exact Or.inl (List.mem_of_mem_filter h1)
        · right
          have hpe : p = (fc.2, fc.1) := by simpa using h1
          rw [hpe]
          exact List.mem_cons_self _ _
      · rw [if_neg hc] at h
        exact Or.inl h
    · exact Or.inr (List.mem_cons_of_mem _ h)

/-- Specialization of the fold invariant to the empty accumulator. -/
theorem mem_csvColumnToField (M : List (String × String))
    (p : String × String) (hp : p ∈ csvColumnToField M) : (p.2, p.1) ∈ M := by
  rcases mem_csvColumnToField_aux M [] p hp with h | h
  · simp at h
  · exact h

/-- An association list with pairwise-distinct keys maps each key to at
most one value. -/
theorem nodupKeys_val_eq (M : List (String × String))
    (hM : (M.map (fun fc => fc.1)).Nodup) :
    ∀ a b c, (a, b) ∈ M → (a, c) ∈ M → b = c := by
  induction M with
  | nil =>
    intro a b c h
    simp at h
  | cons q M' ih =>
    obtain ⟨qa, qb⟩ := q
    intro a b c hb hc
    rw [List.map_cons, List.nodup_cons] at hM
    rcases List.mem_cons.mp hb with h1 | h1 <;>
      rcases List.mem_cons.mp hc with h2 | h2
    · rw [Prod.mk.injEq] at h1 h2
      rw [h1.2, h2.2]
    · rw [Prod.mk.injEq] at h1
      exfalso
      apply hM.1
      rw [← h1.1]
      exact List.mem_map.mpr ⟨(a, c), h2, rfl⟩
    · rw [Prod.mk.injEq] at h2
      exfalso
      apply hM.1
      rw [← h2.1]
      exact List.mem_map.mpr ⟨(a, b), h1, rfl⟩
    · exact ih hM.2 a b c h1 h2

/-- A successful `lookupStr` result is a member of the association list. -/
theorem lookupStr_eq_some_mem (m : List (String × String)) (k v : String)
    (h : lookupStr m k = some v) : (k, v) ∈ m := by
  unfold lookupStr at h
  cases hf : m.find? (fun kv => kv.1 = k) with
  | none =>
    rw [hf] at h
    simp at h
  | some kv =>
    rw [hf] at h
    have hm := List.mem_of_find?_eq_some hf
    have hp := List.find?_some hf
    obtain ⟨a, b⟩ := kv
    simp at hp h
    rw [← hp, ← h]
    exact hm

/-- With pairwise-distinct mapping keys, the column-to-field translation is
injective on the columns it maps: two columns translated to the same field
are equal. -/
theorem csvColumnToField_val_inj (M : List (String × String))
    (hM : (M.map (fun fc => fc.1)).Nodup) (h1 h2 f : String)
    (e1 : lookupStr (csvColumnToField M) h1 = some f)
    (e2 : lookupStr (csvColumnToField M) h2 = some f) : h1 = h2 := by
  have m1 := mem_csvColumnToField M _ (lookupStr_eq_some_mem _ _ _ e1)
  have m2 := mem_csvColumnToField M _ (lookupStr_eq_some_mem _ _ _ e2)
  exact nodupKeys_val_eq M hM f h1 h2 m1 m2

/-- Positional indexing into a duplicate-free list is injective. -/
theorem getD_inj_of_nodup (l : List String) (hl : l.Nodup) (i j : Nat)
    (hi : i < l.length) (hj : j < l.length)
    (he : l.getD i "" = l.getD j "") : i = j := by
  rw [List.getD_eq_getElem l "" hi, List.getD_eq_getElem l "" hj] at he
  exact (List.Nodup.getElem_inj_iff hl).mp he

/-- A successful position-tagging pass (`errors0.mapM errorPos`) returns
the same errors in order, each paired with its own position. -/
theorem mapM_errorPos_spec :
    ∀ (es : List Conflict) (tagged : List (Conflict × (Int × String))),
      es.mapM (fun e => (errorPos e).map (fun p => (e, p))) = .ok tagged →
      tagged.map (fun ep => ep.1) = es ∧
        ∀ ep ∈ tagged, errorPos ep.1 = .ok ep.2 := by
  intro es
  induction es with
  | nil =>
    intro tagged h
    rw [List.mapM_nil] at h
    simp only [pure, Except.pure, Except.ok.injEq] at h
    rw [← h]
    simp
  | cons e es' ih =>
    intro tagged h
    rw [List.mapM_cons] at h
    cases hep : errorPos e with
    | error u =>
      rw [hep] at h
      simp [Except.map, Bind.bind, Except.bind] at h
    | ok p =>
      rw [hep] at h
      cases hrest : es'.mapM (fun e => (errorPos e).map (fun p => (e, p))) with
      | error u =>
        rw [hrest] at h
        simp [Except.map, Bind.bind, Except.bind] at h
      | ok rest =>
        rw [hrest] at h
        simp only [Except.map, Bind.bind, Except.bind, pure, Except.pure,
          Except.ok.injEq] at h
        obtain ⟨h1, h2⟩ := ih rest hrest
        rw [← h]
        refine ⟨by simp [h1], ?_⟩
        intro ep hmem
        rcases List.mem_cons.mp hmem with h3 | h3
        · rw [h3]
          simpa using hep
        · exact h2 ep h3

/-- A cell produced by the changed-cell scan at block `ri`, inner index
`ci`, records exactly those indices. -/
theorem changedCell_entry_indices (mm : List (String × String))
    (headers : List String) (existingData : List DictRow)
    (newData : List (List String)) (ri ci : Nat) (x : ChangedCell)
    (hx : (if cellChanged mm headers existingData newData ri ci then
      some (⟨ri, ci, headers.getD ci "",
        (newData.getD ri []).getD ci ""⟩ : ChangedCell)
      else none) = some x) : x.ri = ri ∧ x.ci = ci := by
  split at hx
  · simp only [Option.some.injEq] at hx
    rw [← hx]
    exact ⟨rfl, rfl⟩
  · simp at hx

/-- Every element of one block of the changed-cell scan carries that
block's row index. -/
theorem changedCells_block_ri (mm : List (String × String))
    (headers : List String) (existingData : List DictRow)
    (newData : List (List String)) (ri : Nat) (x : ChangedCell)
    (hx : x ∈ (List.range (newData.getD ri []).length).filterMap (fun ci =>
      if cellChanged mm headers existingData newData ri ci then
        some ⟨ri, ci, headers.getD ci "", (newData.getD ri []).getD ci ""⟩
      else none)) : x.ri = ri := by
  rw [List.mem_filterMap] at hx
  obtain ⟨ci, _, hci⟩ := hx
  exact (changedCell_entry_indices mm headers existingData newData ri ci x
    hci).1

/-- Distinct changed cells of one diff pass occupy distinct positions. -/
theorem changedCells_pairwise (mm : List (String × String))
    (headers : List String) (existingData : List DictRow)
    (newData : List (List String)) :
    (changedCells mm headers existingData newData).Pairwise
      (fun c c' => ¬(c.ri = c'.ri ∧ c.ci = c'.ci)) := by
  unfold changedCells
  apply pairwise_range_flatMap
  · intro ri
    apply pairwise_range_filterMap
    intro i j hij _ x hx y hy
    obtain ⟨_, hxc⟩ :=
      changedCell_entry_indices mm headers existingData newData ri i x hx
    obtain ⟨_, hyc⟩ :=
      changedCell_entry_indices mm headers existingData newData ri j y hy
    intro hcon
    apply Nat.ne_of_lt hij
    rw [← hxc, ← hyc]
    exact hcon.2
  · intro i j hij _ x hx y hy
    intro hcon
    apply Nat.ne_of_lt hij
    rw [← changedCells_block_ri mm headers existingData newData i x hx,
      ← changedCells_block_ri mm headers existingData newData j y hy]
    exact hcon.1

/-- Every changed cell's header is the positional header at its column
index, which is in bounds. -/
theorem changedCells_header (mm : List (String × String))
    (headers : List String) (existingData : List DictRow)
    (newData : List (List String)) (c : ChangedCell)
    (hc : c ∈ changedCells mm headers existingData newData) :
    c.header = headers.getD c.ci "" ∧ c.ci < headers.length := by
  unfold changedCells at hc
  rw [List.mem_flatMap] at hc
  obtain ⟨ri, _, hc⟩ := hc
  rw [List.mem_filterMap] at hc
  obtain ⟨ci, _, hci⟩ := hc
  split at hci
  case isTrue hch =>
    simp only [Option.some.injEq] at hci
    rw [← hci]
    refine ⟨rfl, ?_⟩
    unfold cellChanged at hch
    simp only [Bool.and_eq_true, decide_eq_true_eq] at hch
    exact hch.1.1
  case isFalse => simp at hci

/-- The position key of a conflict produced for one changed cell: the
mapped field resolves and the key is the 0-based row paired with the field
name. -/
theorem changedCellError_key (fieldCfg : FieldCfgMap)
    (mm : List (String × String)) (c : ChangedCell) (e : Conflict)
    (h : changedCellError fieldCfg mm c = some e) :
    ∃ f, lookupStr mm c.header = some f ∧
      errorPos e = .ok ((c.ri : Int), f) := by
  unfold changedCellError at h
  split at h
  · rename_i f hl
    split at h
    · rename_i V hcfg
      split at h
      · rename_i msg hv
        simp only [Option.some.injEq] at h
        rw [← h]
        exact ⟨f, hl, by simp [errorPos, Int.add_sub_cancel]⟩
      · simp at h
    · simp at h
  · simp at h

/-- The position key of a conflict produced by one full-validation cell. -/
theorem cellError_key (fieldCfg : FieldCfgMap) (mm : List (String × String))
    (headers : List String) (rows : List (List String)) (ri ci : Nat)
    (e : Conflict) (h : cellError fieldCfg mm headers rows ri ci = some e) :
    ∃ f, lookupStr mm (headers.getD ci "") = some f ∧
      errorPos e = .ok ((ri : Int), f) := by
  simp only [cellError] at h
  split at h
  · split at h
    · rename_i f hl
      split at h
      · rename_i V hcfg
        split at h
        · rename_i msg hv
          simp only [Option.some.injEq] at h
          rw [← h]
          exact ⟨f, hl, by simp [errorPos, Int.add_sub_cancel]⟩
        · simp at h
      · simp at h
    · simp at h
  · simp at h

/-- Appending fresh conflicts for one `(row, field)` key to the prior
errors with that key filtered out preserves key uniqueness. -/
theorem kept_append_pairwise (errors0 : List Conflict) (fieldName : String)
    (rn : Int) (tail : List Conflict)
    (hpw : errors0.Pairwise (fun a b =>
      (a.row, fieldOrKey a) ≠ (b.row, fieldOrKey b)))
    (htail : tail.Pairwise (fun a b =>
      (a.row, fieldOrKey a) ≠ (b.row, fieldOrKey b)))
    (htk : ∀ b ∈ tail, b.row = .num rn ∧ fieldOrKey b = some fieldName) :
    ((errors0.filter (fun e =>
        !(rowEqInt e.row rn && fieldOrKey e == some fieldName))) ++
      tail).Pairwise (fun a b =>
      (a.row, fieldOrKey a) ≠ (b.row, fieldOrKey b)) := by
  rw [List.pairwise_append]
  refine ⟨List.Pairwise.filter _ hpw, htail, ?_⟩
  intro a ha b hb
  obtain ⟨hrow, hfk⟩ := htk b hb
  have hcond := (List.mem_filter.mp ha).2
  intro heq
  rw [Prod.mk.injEq] at heq
  have h1 : rowEqInt a.row rn = true := by
    rw [heq.1, hrow]
    simp [rowEqInt]
  have h2 : (fieldOrKey a == some fieldName) = true := by
    rw [heq.2, hfk]
    simp
  rw [h1, h2] at hcond
  simp at hcond

/-- The single-cell edit preserves key uniqueness of the error list. -/
theorem editUpdatedErrors_pairwise (fieldCfg : FieldCfgMap)
    (columnMapping : List (String × String)) (errors0 : List Conflict)
    (ri : Nat) (colKey newValue : String)
    (hfn : fieldNameFor columnMapping colKey ≠ "")
    (hpw : errors0.Pairwise (fun a b =>
      (a.row, fieldOrKey a) ≠ (b.row, fieldOrKey b))) :
    (editUpdatedErrors fieldCfg columnMapping errors0 ri colKey
      newValue).Pairwise (fun a b =>
      (a.row, fieldOrKey a) ≠ (b.row, fieldOrKey b)) := by
  unfold editUpdatedErrors
  cases hcfg : fieldCfg (fieldNameFor columnMapping colKey) with
  | none =>
    simp only [hcfg]
    exact kept_append_pairwise errors0 (fieldNameFor columnMapping colKey)
      ((ri : Int) + 1) [] hpw (by simp) (by simp)
  | some V =>
    simp only [hcfg]
    cases hv : V newValue with
    | none =>
      simp only [hv]
      exact kept_append_pairwise errors0 (fieldNameFor columnMapping colKey)
        ((ri : Int) + 1) [] hpw (by simp) (by simp)
    | some m =>
      simp only [hv]
      apply kept_append_pairwise errors0 (fieldNameFor columnMapping colKey)
        ((ri : Int) + 1) _ hpw (List.pairwise_singleton _ _)
      intro b hb
      rw [List.mem_singleton] at hb
      rw [hb]
      exact ⟨rfl, by simp [fieldOrKey, hfn]⟩

/-- The stored-error component of the diff-based save outcome. -/
theorem saveOutcomeCore_errors (fieldCfg : FieldCfgMap)
    (columnMapping : List (String × String))
    (processedData : Option (List DictRow))
    (headersParam : Option (List String)) (newData : List (List String))
    (tagged : List (Conflict × (Int × String))) :
    (saveOutcomeCore fieldCfg columnMapping processedData headersParam
      newData tagged).errors =
    diffUnchanged tagged
      (diffChangedPositions (csvColumnToField columnMapping)
        (resolvedHeaders processedData headersParam)
        (processedData.getD []) newData) ++
    diffNewErrors fieldCfg (csvColumnToField columnMapping)
      (resolvedHeaders processedData headersParam)
      (processedData.getD []) newData := rfl

/-- Full validation emits at most one conflict per position key when the
headers and the mapping keys are duplicate-free. -/
theorem fullValidate_pairwise_keys (fieldCfg : FieldCfgMap)
    (columnMapping : List (String × String)) (headers : List String)
    (rows : List (List String)) (hnodup : headers.Nodup)
    (hkeys : (columnMapping.map (fun fc => fc.1)).Nodup) :
    (fullValidate fieldCfg (csvColumnToField columnMapping) headers
      rows).Pairwise (fun a b => errorPos a ≠ errorPos b) := by
  unfold fullValidate
  apply pairwise_range_flatMap
  · intro ri
    apply pairwise_range_filterMap
    intro i j hij hj x hx y hy
    obtain ⟨f, hlf, hpos⟩ := cellError_key _ _ _ _ _ _ _ hx
    obtain ⟨f', hlf', hpos'⟩ := cellError_key _ _ _ _ _ _ _ hy
    rw [hpos, hpos']
    intro heq
    simp only [Except.ok.injEq, Prod.mk.injEq] at heq
    have hlf2 : lookupStr (csvColumnToField columnMapping)
        (headers.getD j "") = some f := by
      rw [heq.2]
      exact hlf'
    have hhd : headers.getD i "" = headers.getD j "" :=
      csvColumnToField_val_inj columnMapping hkeys _ _ f hlf hlf2
    exact Nat.ne_of_lt hij
      (getD_inj_of_nodup headers hnodup i j (Nat.lt_trans hij hj) hj hhd)
  · intro i j hij _ x hx y hy
    rw [List.mem_filterMap] at hx hy
    obtain ⟨ci, _, hci⟩ := hx
    obtain ⟨cj, _, hcj⟩ := hy
    obtain ⟨f, _, hpos⟩ := cellError_key _ _ _ _ _ _ _ hci
    obtain ⟨f', _, hpos'⟩ := cellError_key _ _ _ _ _ _ _ hcj
    rw [hpos, hpos']
    intro heq
    simp only [Except.ok.injEq, Prod.mk.injEq] at heq
    have : i = j := by exact_mod_cast heq.1
    exact Nat.ne_of_lt hij this

/-- C9: conflict-key uniqueness is preserved by every write path. After a
single-cell edit the error list has pairwise-distinct `(row, field-or-
column)` keys whenever the prior list did (the edit removes every prior
conflict for the edited key before appending at most one fresh conflict);
after a successful diff-based save the error list has pairwise-distinct
position keys whenever the prior list did, given duplicate-free headers
and mapping keys (carried-over errors keep their distinct keys, freshly
validated cells occupy distinct positions, and a carried-over error never
shares a position with a fresh one); and a full revalidation pass emits at
most one conflict per position key outright. -/
theorem conflict_key_uniqueness :
    (∀ (fieldCfg : FieldCfgMap) (columnMapping : List (String × String))
       (data0 : List DictRow) (errors0 : List Conflict) (ri : Nat)
       (colKey newValue : String) (out : EditOutcome),
       fieldNameFor columnMapping colKey ≠ "" →
       errors0.Pairwise (fun a b =>
         (a.row, fieldOrKey a) ≠ (b.row, fieldOrKey b)) →
       updateCellEdit fieldCfg columnMapping data0 errors0 ri colKey
         newValue = .ok out →
       out.errors.Pairwise (fun a b =>
         (a.row, fieldOrKey a) ≠ (b.row, fieldOrKey b))) ∧
    (∀ (fieldCfg : FieldCfgMap) (columnMapping : List (String × String))
       (processedData : Option (List DictRow)) (errors0 : List Conflict)
       (headersParam : Option (List String)) (newData : List (List String))
       (out : SaveOutcome),
       (resolvedHeaders processedData headersParam).Nodup →
       (columnMapping.map (fun fc => fc.1)).Nodup →
       errors0.Pairwise (fun a b => errorPos a ≠ errorPos b) →
       optimizedSaveAndValidate fieldCfg columnMapping processedData errors0
         headersParam newData = .ok out →
       out.errors.Pairwise (fun a b => errorPos a ≠ errorPos b)) ∧
    (∀ (fieldCfg : FieldCfgMap) (columnMapping : List (String × String))
       (headers : List String) (rows : List (List String)),
       headers.Nodup →
       (columnMapping.map (fun fc => fc.1)).Nodup →
       (fullValidate fieldCfg (csvColumnToField columnMapping) headers
         rows).Pairwise (fun a b => errorPos a ≠ errorPos b)) := by
  refine ⟨?_, ?_, ?_⟩
  · intro fieldCfg columnMapping data0 errors0 ri colKey newValue out hfn hpw h
    obtain ⟨he, _, _⟩ := updateCellEdit_ok fieldCfg columnMapping data0
      errors0 ri colKey newValue out h
    rw [he]
    exact editUpdatedErrors_pairwise fieldCfg columnMapping errors0 ri colKey
      newValue hfn hpw
  · intro fieldCfg columnMapping processedData errors0 headersParam newData
      out hnodup hkeys hpw h
    obtain ⟨tagged, htag, hout⟩ := optimizedSave_ok fieldCfg columnMapping
      processedData errors0 headersParam newData out h
    obtain ⟨hmap, hok⟩ := mapM_errorPos_spec errors0 tagged htag
    rw [hout, saveOutcomeCore_errors, List.pairwise_append]
    have hpw2 : tagged.Pairwise (fun a b => errorPos a.1 ≠ errorPos b.1) := by
      have hpw' := hpw
      rw [← hmap, List.pairwise_map] at hpw'
      exact hpw'
    refine ⟨?_, ?_, ?_⟩
    · unfold diffUnchanged
      rw [List.pairwise_map]
      exact List.Pairwise.filter _ hpw2
    · unfold diffNewErrors
      rw [List.pairwise_filterMap]
      refine List.Pairwise.imp_of_mem ?_
        (changedCells_pairwise (csvColumnToField columnMapping)
          (resolvedHeaders processedData headersParam)
          (processedData.getD []) newData)
      intro c c' hc hc' hcc e he e' he'
      rw [Option.mem_def] at he he'
      obtain ⟨f, hlf, hpos⟩ := changedCellError_key _ _ _ _ he
      obtain ⟨f', hlf', hpos'⟩ := changedCellError_key _ _ _ _ he'
      rw [hpos, hpos']
      intro heq
      simp only [Except.ok.injEq, Prod.mk.injEq] at heq
      apply hcc
      have hri : c.ri = c'.ri := by exact_mod_cast heq.1
      refine ⟨hri, ?_⟩
      obtain ⟨hh, hlt⟩ := changedCells_header _ _ _ _ c hc
      obtain ⟨hh', hlt'⟩ := changedCells_header _ _ _ _ c' hc'
      have hlf2 : lookupStr (csvColumnToField columnMapping) c'.header =
          some f := by
        rw [heq.2]
        exact hlf'
      have hhead : c.header = c'.header :=
        csvColumnToField_val_inj columnMapping hkeys _ _ f hlf hlf2
      apply getD_inj_of_nodup _ hnodup _ _ hlt hlt'
      rw [← hh, ← hh', hhead]
    · intro u hu e he
      unfold diffUnchanged at hu
      rw [List.mem_map] at hu
      obtain ⟨ep, hepmem, hep1⟩ := hu
      have hnotin : ep.2 ∉ diffChangedPositions (csvColumnToField columnMapping)
          (resolvedHeaders processedData headersParam)
          (processedData.getD []) newData := by
        simpa using (List.mem_filter.mp hepmem).2
      unfold diffNewErrors at he
      rw [List.mem_filterMap] at he
      obtain ⟨c, hcmem, hce⟩ := he
      obtain ⟨f, hlf, hpos⟩ := changedCellError_key _ _ _ _ hce
      have hup : errorPos u = .ok ep.2 := by
        rw [← hep1]
        exact hok ep (List.mem_of_mem_filter hepmem)
      rw [hup, hpos]
      intro heq
      simp only [Except.ok.injEq] at heq
      apply hnotin
      rw [heq]
      unfold diffChangedPositions
      refine List.mem_map.mpr ⟨c, hcmem, ?_⟩
      rw [hlf]
      rfl
  · intro fieldCfg columnMapping headers rows hnodup hkeys
    exact fullValidate_pairwise_keys fieldCfg columnMapping headers rows
      hnodup hkeys

/-- Witness for C9 at concrete one-field inputs: the edit path, the
diff-save path and a full revalidation each yield a single-conflict error
list with trivially distinct keys. -/
theorem conflict_key_uniqueness_witness :
    (EditOutcome.mk [[("col", "bad")]]
      [⟨.num 1, some "amount", none, "bad", "invalid value"⟩] 1
      .uncompleted).errors.Pairwise (fun a b =>
      (a.row, fieldOrKey a) ≠ (b.row, fieldOrKey b)) ∧
    (SaveOutcome.mk [[("col", "bad")]]
      [⟨.num 1, some "amount", some "col", "bad", "invalid value"⟩] 1
      .uncompleted 1 1 0).errors.Pairwise
      (fun a b => errorPos a ≠ errorPos b) ∧
    (fullValidate simpleCfg (csvColumnToField [("amount", "col")]) ["col"]
      [["bad"]]).Pairwise (fun a b => errorPos a ≠ errorPos b) :=
  ⟨conflict_key_uniqueness.1 simpleCfg [("amount", "col")] [[("col", "x")]]
      [] 0 "col" "bad" _ (by decide) List.Pairwise.nil rfl,
   conflict_key_uniqueness.2.1 simpleCfg [("amount", "col")]
      (some [[("col", "ok")]]) [] (some ["col"]) [["bad"]] _ (by decide)
      (by decide) List.Pairwise.nil rfl,
   conflict_key_uniqueness.2.2 simpleCfg [("amount", "col")] ["col"]
      [["bad"]] (by decide) (by decide)⟩

/-! ### Diff-based save versus full revalidation (support lemmas) -/

/-- Header resolution is the identity on data stored as dict rows built
from the same headers. -/
theorem resolvedHeaders_toDictRow (prev : List (List String))
    (headers : List String) :
    resolvedHeaders (some (prev.map (toDictRow headers))) (some headers) =
      headers := by
  unfold resolvedHeaders
  simp only [Option.getD_some]
  by_cases hh : headers.isEmpty = true
  · rw [if_pos hh]
    have hhe : headers = [] := List.isEmpty_iff.mp hh
    rw [hhe]
    cases prev with
    | nil => rfl
    | cons p ps => rfl
  · rw [if_neg hh]

/-- First-match lookup over pairs keyed by an injective index function
finds the entry of the looked-up index. -/
theorem lookupStr_toDictRow (headers row : List String) :
    ∀ (l : List Nat) (ci : Nat), ci ∈ l →
      (∀ i ∈ l, headers.getD i "" = headers.getD ci "" → i = ci) →
      lookupStr (l.map (fun i => (headers.getD i "", row.getD i "")))
        (headers.getD ci "") = some (row.getD ci "") := by
  intro l
  induction l with
  | nil =>
    intro ci h
    simp at h
  | cons j l' ih =>
    intro ci hmem huniq
    by_cases hj : headers.getD j "" = headers.getD ci ""
    · have hji : j = ci := huniq j (List.mem_cons_self _ _) hj
      unfold lookupStr
      rw [List.map_cons, hji, List.find?_cons]
      simp
    · unfold lookupStr
      rw [List.map_cons, List.find?_cons]
      simp only [decide_eq_false hj]
      have hmem' : ci ∈ l' := by
        rcases List.mem_cons.mp hmem with h | h
        · exact absurd (by rw [h]) hj
        · exact h
      exact ih ci hmem' (fun i hi => huniq i (List.mem_cons_of_mem _ hi))

/-- Reading a dict row rebuilt from positional values returns the
positional value of the looked-up header (duplicate-free headers). -/
theorem rowGet_toDictRow (headers : List String) (hnd : headers.Nodup)
    (row : List String) (ci : Nat) (hci : ci < headers.length) :
    rowGet (toDictRow headers row) (headers.getD ci "") = row.getD ci "" := by
  have huniq : ∀ i ∈ List.range headers.length,
      headers.getD i "" = headers.getD ci "" → i = ci :=
    fun i hi hk =>
      getD_inj_of_nodup headers hnd i ci (List.mem_range.mp hi) hci hk
  unfold rowGet toDictRow
  rw [lookupStr_toDictRow headers row (List.range headers.length) ci
    (List.mem_range.mpr hci) huniq]
  rfl

/-- Membership in a full validation pass, by cell coordinates. -/
theorem mem_fullValidate (fieldCfg : FieldCfgMap)
    (mm : List (String × String)) (hs : List String)
    (rows : List (List String)) (e : Conflict) :
    e ∈ fullValidate fieldCfg mm hs rows ↔
    ∃ ri ci, ri < rows.length ∧ ci < hs.length ∧
      cellError fieldCfg mm hs rows ri ci = some e := by
  unfold fullValidate
  constructor
  · intro h
    rw [List.mem_flatMap] at h
    obtain ⟨ri, hri, h⟩ := h
    rw [List.mem_filterMap] at h
    obtain ⟨ci, hci, h⟩ := h
    exact ⟨ri, ci, List.mem_range.mp hri, List.mem_range.mp hci, h⟩
  · rintro ⟨ri, ci, hri, hci, h⟩
    rw [List.mem_flatMap]
    exact ⟨ri, List.mem_range.mpr hri,
      List.mem_filterMap.mpr ⟨ci, List.mem_range.mpr hci, h⟩⟩

/-- Introduction form of one full-validation cell conflict. -/
theorem cellError_intro (fieldCfg : FieldCfgMap)
    (mm : List (String × String)) (hs : List String)
    (rows : List (List String)) (ri ci : Nat) (f' : String)
    (V : String → Option String) (msg : String)
    (hciR : ci < (rows.getD ri []).length)
    (hl : lookupStr mm (hs.getD ci "") = some f')
    (hV : fieldCfg f' = some V)
    (hmsg : V ((rows.getD ri []).getD ci "") = some msg) :
    cellError fieldCfg mm hs rows ri ci =
      some ⟨.num ((ri : Int) + 1), some f', some (hs.getD ci ""),
        (rows.getD ri []).getD ci "", msg⟩ := by
  simp only [cellError]
  rw [if_pos hciR]
  simp only [hl, hV, hmsg]

/-- Elimination form of one full-validation cell conflict. -/
theorem cellError_elim (fieldCfg : FieldCfgMap)
    (mm : List (String × String)) (hs : List String)
    (rows : List (List String)) (ri ci : Nat) (e : Conflict)
    (h : cellError fieldCfg mm hs rows ri ci = some e) :
    ci < (rows.getD ri []).length ∧
    ∃ f' V msg, lookupStr mm (hs.getD ci "") = some f' ∧
      fieldCfg f' = some V ∧
      V ((rows.getD ri []).getD ci "") = some msg ∧
      e = ⟨.num ((ri : Int) + 1), some f', some (hs.getD ci ""),
        (rows.getD ri []).getD ci "", msg⟩ := by
  simp only [cellError] at h
  split at h
  · rename_i hlt
    split at h
    · rename_i f hl
      split at h
      · rename_i V hV
        split at h
        · rename_i msg hv
          simp only [Option.some.injEq] at h
          exact ⟨hlt, f, V, msg, hl, hV, hv, h.symm⟩
        · simp at h
      · simp at h
    · simp at h
  · simp at h

/-- Introduction form of one changed-cell conflict. -/
theorem changedCellError_intro (fieldCfg : FieldCfgMap)
    (mm : List (String × String)) (c : ChangedCell) (f' : String)
    (V : String → Option String) (msg : String)
    (hl : lookupStr mm c.header = some f')
    (hV : fieldCfg f' = some V)
    (hmsg : V c.value = some msg) :
    changedCellError fieldCfg mm c =
      some ⟨.num ((c.ri : Int) + 1), some f', some c.header, c.value,
        msg⟩ := by
  simp only [changedCellError, hl, hV, hmsg]

/-- Elimination form of one changed-cell conflict. -/
theorem changedCellError_elim (fieldCfg : FieldCfgMap)
    (mm : List (String × String)) (c : ChangedCell) (e : Conflict)
    (h : changedCellError fieldCfg mm c = some e) :
    ∃ f' V msg, lookupStr mm c.header = some f' ∧ fieldCfg f' = some V ∧
      V c.value = some msg ∧
      e = ⟨.num ((c.ri : Int) + 1), some f', some c.header, c.value, msg⟩ := by
  unfold changedCellError at h
  split at h
  · rename_i f hl
    split at h
    · rename_i V hV
      split at h
      · rename_i msg hv
        simp only [Option.some.injEq] at h
        exact ⟨f, V, msg, hl, hV, hv, h.symm⟩
      · simp at h
    · simp at h
  · simp at h

/-- Introduction form of changed-cell membership. -/
theorem mem_changedCells_intro (mm : List (String × String))
    (hs : List String) (ex : List DictRow) (nd : List (List String))
    (ri ci : Nat) (hri : ri < nd.length)
    (hci : ci < (nd.getD ri []).length)
    (hch : cellChanged mm hs ex nd ri ci = true) :
    (⟨ri, ci, hs.getD ci "", (nd.getD ri []).getD ci ""⟩ : ChangedCell) ∈
      changedCells mm hs ex nd := by
  unfold changedCells
  rw [List.mem_flatMap]
  refine ⟨ri, List.mem_range.mpr hri, ?_⟩
  rw [List.mem_filterMap]
  refine ⟨ci, List.mem_range.mpr hci, ?_⟩
  rw [if_pos hch]

/-- Elimination form of changed-cell membership. -/
theorem mem_changedCells_elim (mm : List (String × String))
    (hs : List String) (ex : List DictRow) (nd : List (List String))
    (c : ChangedCell) (hc : c ∈ changedCells mm hs ex nd) :
    c.ri < nd.length ∧ c.ci < (nd.getD c.ri []).length ∧
    cellChanged mm hs ex nd c.ri c.ci = true ∧
    c.header = hs.getD c.ci "" ∧
    c.value = (nd.getD c.ri []).getD c.ci "" := by
  unfold changedCells at hc
  rw [List.mem_flatMap] at hc
  obtain ⟨ri, hri, hc⟩ := hc
  rw [List.mem_filterMap] at hc
  obtain ⟨ci, hci, hcE⟩ := hc
  rw [List.mem_range] at hri hci
  split at hcE
  · rename_i hch
    simp only [Option.some.injEq] at hcE
    rw [← hcE]
    exact ⟨hri, hci, hch, rfl, rfl⟩
  · simp at hcE

/-- C1 (amended): the diff-based save agrees with full revalidation as a
set of `(row, field, error)` records, provided the job's stored errors are
the full validation of the stored dataset, the headers and the mapping
keys are duplicate-free, every row covers all headers, and no row was
deleted (the edited dataset is at least as long as the stored one). -/
theorem diff_save_equiv_full_revalidation :
    ∀ (fieldCfg : FieldCfgMap) (columnMapping : List (String × String))
      (headers : List String) (prev newData : List (List String))
      (out : SaveOutcome),
      headers.Nodup →
      (columnMapping.map (fun fc => fc.1)).Nodup →
      prev.length ≤ newData.length →
      (∀ r ∈ prev, headers.length ≤ r.length) →
      (∀ r ∈ newData, headers.length ≤ r.length) →
      optimizedSaveAndValidate fieldCfg columnMapping
        (some (prev.map (toDictRow headers)))
        (fullValidate fieldCfg (csvColumnToField columnMapping) headers
          prev)
        (some headers) newData = .ok out →
      ∀ t, t ∈ out.errors.map tripleOf ↔
        t ∈ (fullValidate fieldCfg (csvColumnToField columnMapping) headers
          newData).map tripleOf := by
  intro fieldCfg columnMapping headers prev newData out hnodup hkeys hlen
    hcovP hcovN h
  obtain ⟨tagged, htag, hout⟩ := optimizedSave_ok _ _ _ _ _ _ _ h
  obtain ⟨hmap, hok⟩ := mapM_errorPos_spec _ _ htag
  have hres := resolvedHeaders_toDictRow prev headers
  have hset : ∀ e, e ∈ out.errors ↔
      e ∈ fullValidate fieldCfg (csvColumnToField columnMapping) headers
        newData := by
    intro e
    rw [hout, saveOutcomeCore_errors, hres]
    simp only [Option.getD_some]
    rw [List.mem_append]
    constructor
    · intro he
      rcases he with hu | hn
      · -- carried-over error for an unchanged cell
        unfold diffUnchanged at hu
        rw [List.mem_map] at hu
        obtain ⟨ep, hfil, hep1⟩ := hu
        have hepT := (List.mem_filter.mp hfil).1
        have hnotin : ep.2 ∉ diffChangedPositions
            (csvColumnToField columnMapping) headers
            (prev.map (toDictRow headers)) newData :=
          of_decide_eq_true (List.mem_filter.mp hfil).2
        have he0 : e ∈ fullValidate fieldCfg (csvColumnToField columnMapping)
            headers prev := by
          rw [← hmap]
          exact List.mem_map.mpr ⟨ep, hepT, hep1⟩
        rw [mem_fullValidate] at he0
        obtain ⟨ri, ci, hriP, hci, hcell⟩ := he0
        obtain ⟨hciP, f', V, msg, hl, hV, hmsg, hE⟩ :=
          cellError_elim _ _ _ _ _ _ _ hcell
        have hepos : errorPos e = .ok ((ri : Int), f') := by
          rw [hE]
          simp [errorPos, Int.add_sub_cancel]
        have hp2 : ep.2 = ((ri : Int), f') := by
          have := hok ep hepT
          rw [hep1, hepos] at this
          exact (Except.ok.inj this).symm
        have hriN : ri < newData.length := Nat.lt_of_lt_of_le hriP hlen
        have hmemN : newData.getD ri [] ∈ newData := by
          rw [List.getD_eq_getElem newData [] hriN]
          exact List.getElem_mem hriN
        have hciN : ci < (newData.getD ri []).length :=
          Nat.lt_of_lt_of_le hci (hcovN _ hmemN)
        have hexi : (prev.map (toDictRow headers)).getD ri [] =
            toDictRow headers (prev.getD ri []) := by
          rw [List.getD_eq_getElem _ _ (by simpa using hriP),
            List.getElem_map, List.getD_eq_getElem prev [] hriP]
        have hveq : (newData.getD ri []).getD ci "" =
            (prev.getD ri []).getD ci "" := by
          by_contra hne
          apply hnotin
          rw [hp2]
          have hch : cellChanged (csvColumnToField columnMapping) headers
              (prev.map (toDictRow headers)) newData ri ci = true := by
            simp only [cellChanged]
            rw [if_pos (by rw [List.length_map]; exact hriP)]
            rw [Bool.and_eq_true, Bool.and_eq_true]
            refine ⟨⟨by simp [hci], by rw [hl]; rfl⟩, ?_⟩
            rw [decide_eq_true_eq, hexi,
              rowGet_toDictRow headers hnodup (prev.getD ri []) ci hci]
            exact hne
          unfold diffChangedPositions
          refine List.mem_map.mpr
            ⟨⟨ri, ci, headers.getD ci "", (newData.getD ri []).getD ci ""⟩,
             mem_changedCells_intro _ _ _ _ ri ci hriN hciN hch, ?_⟩
          rw [hl]
          rfl
        rw [mem_fullValidate]
        refine ⟨ri, ci, hriN, hci, ?_⟩
        rw [hE, ← hveq]
        exact cellError_intro _ _ _ _ _ _ _ _ _ hciN hl hV
          (by rw [hveq]; exact hmsg)
      · -- freshly validated changed cell
        unfold diffNewErrors at hn
        rw [List.mem_filterMap] at hn
        obtain ⟨c, hc, hce⟩ := hn
        obtain ⟨hcri, hcci, hch, hchead, hcval⟩ :=
          mem_changedCells_elim _ _ _ _ _ hc
        obtain ⟨f', V, msg, hl, hV, hmsg, hE⟩ :=
          changedCellError_elim _ _ _ _ hce
        have hciH : c.ci < headers.length := by
          simp only [cellChanged, Bool.and_eq_true, decide_eq_true_eq] at hch
          exact hch.1.1
        rw [mem_fullValidate]
        refine ⟨c.ri, c.ci, hcri, hciH, ?_⟩
        rw [hE, hchead, hcval]
        exact cellError_intro _ _ _ _ _ _ _ _ _ hcci
          (by rw [← hchead]; exact hl) hV (by rw [← hcval]; exact hmsg)
    · intro he
      rw [mem_fullValidate] at he
      obtain ⟨ri, ci, hriN, hci, hcell⟩ := he
      obtain ⟨hciN, f', V, msg, hl, hV, hmsg, hE⟩ :=
        cellError_elim _ _ _ _ _ _ _ hcell
      by_cases hch : cellChanged (csvColumnToField columnMapping) headers
          (prev.map (toDictRow headers)) newData ri ci = true
      · -- changed cell: the fresh validation re-emits the conflict
        right
        unfold diffNewErrors
        rw [List.mem_filterMap]
        refine ⟨⟨ri, ci, headers.getD ci "", (newData.getD ri []).getD ci ""⟩,
          mem_changedCells_intro _ _ _ _ ri ci hriN hciN hch, ?_⟩
        rw [hE]
        exact changedCellError_intro _ _ _ _ _ _ hl hV hmsg
      · -- unchanged cell: the conflict is carried over from the prior pass
        left
        have hchf : cellChanged (csvColumnToField columnMapping) headers
            (prev.map (toDictRow headers)) newData ri ci = false :=
          Bool.eq_false_iff.mpr hch
        simp only [cellChanged, hl, Option.isSome_some, decide_eq_true hci,
          Bool.true_and] at hchf
        split at hchf
        rotate_left
        · simp at hchf
        rename_i hlt
        rw [decide_eq_false_iff_not, not_not] at hchf
        have hriP : ri < prev.length := by
          rw [List.length_map] at hlt
          exact hlt
        have hexi : (prev.map (toDictRow headers)).getD ri [] =
            toDictRow headers (prev.getD ri []) := by
          rw [List.getD_eq_getElem _ _ (by simpa using hriP),
            List.getElem_map, List.getD_eq_getElem prev [] hriP]
        have hveq : (newData.getD ri []).getD ci "" =
            (prev.getD ri []).getD ci "" := by
          rw [hchf, hexi,
            rowGet_toDictRow headers hnodup (prev.getD ri []) ci hci]
        have hmemP : prev.getD ri [] ∈ prev := by
          rw [List.getD_eq_getElem prev [] hriP]
          exact List.getElem_mem hriP
        have hciP : ci < (prev.getD ri []).length :=
          Nat.lt_of_lt_of_le hci (hcovP _ hmemP)
        have hcellP : cellError fieldCfg (csvColumnToField columnMapping)
            headers prev ri ci = some e := by
          rw [hE, hveq]
          exact cellError_intro _ _ _ _ _ _ _ _ _ hciP hl hV
            (by rw [← hveq]; exact hmsg)
        have he0 : e ∈ fullValidate fieldCfg (csvColumnToField columnMapping)
            headers prev := by
          rw [mem_fullValidate]
          exact ⟨ri, ci, hriP, hci, hcellP⟩
        rw [← hmap, List.mem_map] at he0
        obtain ⟨ep, hepT, hep1⟩ := he0
        have hepos : errorPos e = .ok ((ri : Int), f') := by
          rw [hE]
          simp [errorPos, Int.add_sub_cancel]
        have hp2 : ep.2 = ((ri : Int), f') := by
          have := hok ep hepT
          rw [hep1, hepos] at this
          exact (Except.ok.inj this).symm
        have hnotin : ep.2 ∉ diffChangedPositions
            (csvColumnToField columnMapping) headers
            (prev.map (toDictRow headers)) newData := by
          rw [hp2]
          intro hmem
          unfold diffChangedPositions at hmem
          rw [List.mem_map] at hmem
          obtain ⟨c', hc', hpos'⟩ := hmem
          obtain ⟨hcri', hcci', hch', hchead', hcval'⟩ :=
            mem_changedCells_elim _ _ _ _ _ hc'
          rw [Prod.mk.injEq] at hpos'
          have hriE : c'.ri = ri := by exact_mod_cast hpos'.1
          have hciH' : c'.ci < headers.length := by
            simp only [cellChanged, Bool.and_eq_true, decide_eq_true_eq]
              at hch'
            exact hch'.1.1
          have hsome' : (lookupStr (csvColumnToField columnMapping)
              c'.header).isSome = true := by
            simp only [cellChanged, Bool.and_eq_true] at hch'
            rw [hchead']
            exact hch'.1.2
          obtain ⟨f'', hf''⟩ := Option.isSome_iff_exists.mp hsome'
          have hfeq : f'' = f' := by
            rw [hf''] at hpos'
            exact hpos'.2
          have hhead : c'.header = headers.getD ci "" :=
            csvColumnToField_val_inj columnMapping hkeys _ _ f'
              (by rw [← hfeq]; exact hf'') hl
          have hciE : c'.ci = ci := by
            apply getD_inj_of_nodup headers hnodup _ _ hciH' hci
            rw [← hchead']
            exact hhead
          rw [hriE, hciE] at hch'
          exact hch hch'
        unfold diffUnchanged
        rw [List.mem_map]
        exact ⟨ep, List.mem_filter.mpr ⟨hepT, decide_eq_true hnotin⟩, hep1⟩
  intro t
  constructor
  · intro ht
    rw [List.mem_map] at ht
    obtain ⟨e, he, hte⟩ := ht
    exact List.mem_map.mpr ⟨e, (hset e).mp he, hte⟩
  · intro ht
    rw [List.mem_map] at ht
    obtain ⟨e, he, hte⟩ := ht
    exact List.mem_map.mpr ⟨e, (hset e).mpr he, hte⟩

/-- Counterexample to C1 as stated: when the edited dataset drops a row,
the diff-based save carries over the deleted row's prior error (its
position is never re-validated), while full revalidation of the edited
dataset reports only the surviving row — the two error sets differ. -/
theorem diff_save_stale_deleted_rows :
    (optimizedSaveAndValidate simpleCfg [("amount", "col")]
        (some ([["bad"], ["bad"]].map (toDictRow ["col"])))
        (fullValidate simpleCfg (csvColumnToField [("amount", "col")])
          ["col"] [["bad"], ["bad"]])
        (some ["col"]) [["bad"]]).map
      (fun out => out.errors.map tripleOf) =
      .ok [(.num 1, some "amount", "invalid value"),
        (.num 2, some "amount", "invalid value")] ∧
    (fullValidate simpleCfg (csvColumnToField [("amount", "col")]) ["col"]
      [["bad"]]).map tripleOf =
      [(.num 1, some "amount", "invalid value")] := ⟨rfl, rfl⟩

/-- Witness for C1 at a concrete one-row edit with no deleted rows. -/
theorem diff_save_equiv_full_revalidation_witness :
    (RowKey.num 1, some "amount", "invalid value") ∈
      (SaveOutcome.mk [[("col", "bad")]]
        [⟨.num 1, some "amount", some "col", "bad", "invalid value"⟩] 1
        .uncompleted 1 1 0).errors.map tripleOf ↔
    (RowKey.num 1, some "amount", "invalid value") ∈
      (fullValidate simpleCfg (csvColumnToField [("amount", "col")]) ["col"]
        [["bad"]]).map tripleOf :=
  diff_save_equiv_full_revalidation simpleCfg [("amount", "col")] ["col"]
    [["ok"]] [["bad"]] _ (by decide) (by decide) (by decide) (by decide)
    (by decide) rfl (RowKey.num 1, some "amount", "invalid value")

end Importal
